import Mathlib

/-! splitpt: the packet-connection adapters.

A shallow embedding of the three `net.PacketConn` adapters of the repository

* `common/turbotunnel/queuepacketconn.go`  (`QueuePacketConn`),
* `common/turbotunnel/redialpacketconn.go` (`RedialPacketConn`),
* `common/split/round-robin.go`            (`RoundRobinPacketConn`),

followed by the properties proved about them.

Conventions of the embedding.

* A Go value of type `error` is an `Option Error`; `none` is `nil`.
* A buffered channel is the list of the values it holds together with its
  capacity; a channel of `struct{}` that is only ever closed is a `Bool`
  (`true` once closed); a `sync.Once` is a `Bool` (`true` once `Do` has run);
  an `atomic.Value` holding an error is an `Option Error` (`none` before the
  first `Store`).
* A method that mutates its receiver returns the new receiver. A call either
  returns, or is still pending (blocked in a `select`, or not finished within
  the schedule that is considered), or faults (a Go run-time panic).
* Goroutines are step functions on the shared state; an execution is a list
  of events (a schedule) saying which goroutine moves next.
* `net.Addr` values are taken to be non-nil.
-/

namespace Splitpt

/-! ## Go builtins -/

/-- A Go byte slice, by value. -/
abbrev Bytes := List UInt8

/-- The builtin `make([]byte, n)`: a slice of `n` zero bytes. -/
def make (n : Nat) : Bytes := List.replicate n 0

/-- The builtin `copy(dst, src)`: the first `min (len dst) (len src)` bytes of
`dst` are overwritten with those of `src`; the result is `dst` after the call
and the number of bytes copied. -/
def copy (dst src : Bytes) : Bytes × Nat :=
  let n := min dst.length src.length
  (src.take n ++ dst.drop n, n)

/-- A `net.Addr`, observed through its `Network` and `String` methods (as
`stringAddr` of redialpacketconn.go implements it). -/
structure Addr where
  network : String
  address : String
deriving DecidableEq, Repr

/-- Modelled from the spec: the `SessionID` type, whose declaration is not
among the sources: "a fixed-length immutable byte sequence, compared by
value". -/
structure SessionID where
  bytes : Bytes
deriving DecidableEq, Repr

/-- Go errors that occur in the adapters. `opError` is `*net.OpError` with its
fields `Op`, `Net`, `Source`, `Addr`, `Err`. -/
inductive Error where
  | errClosed
  | errNotImplemented
  | other (msg : String)
  | opError (op : String) (net : String) (source : Option SessionID) (addr : Addr) (err : Error)
deriving DecidableEq, Repr

/-- The variable `errClosed` of queuepacketconn.go:
`errors.New("operation on closed connection")`. -/
def errClosed : Error := Error.errClosed

/-- The variable `errNotImplemented` of redialpacketconn.go. -/
def errNotImplemented : Error := Error.errNotImplemented

/-- The `Unwrap` method of `*net.OpError`: the error it wraps. -/
def Error.unwrap : Error → Option Error
  | .opError _ _ _ _ e => some e
  | _ => none

/-- The field `Op` of a `*net.OpError`. -/
def Error.op : Error → Option String
  | .opError o _ _ _ _ => some o
  | _ => none

/-- The result of a call on a receiver of type `σ`. -/
inductive Outcome (σ α : Type) where
  /-- the call returns `a`, leaving the receiver as `s` -/
  | ret (s : σ) (a : α)
  /-- the call has not returned: it is blocked, or still running at the end of
  the schedule considered; the receiver is `s` -/
  | pending (s : σ)
  /-- a run-time panic -/
  | fault
deriving DecidableEq, Repr

/-! ## Channels -/

/-- A buffered channel `make(chan α, cap)`. -/
structure Chan (α : Type) where
  cap : Nat
  buf : List α
deriving DecidableEq, Repr

/-- The expression `make(chan α, cap)`. -/
def Chan.make {α : Type} (cap : Nat) : Chan α := ⟨cap, []⟩

/-- A send in a `select` with a `default` case: `none` when the buffer is full. -/
def Chan.trySend {α : Type} (ch : Chan α) (x : α) : Option (Chan α) :=
  if ch.buf.length < ch.cap then some { ch with buf := ch.buf ++ [x] } else none

/-- A receive that does not wait: `none` when the buffer is empty. -/
def Chan.tryRecv {α : Type} (ch : Chan α) : Option (α × Chan α) :=
  match ch.buf with
  | [] => none
  | x :: rest => some (x, { ch with buf := rest })

/-! ## queuepacketconn.go -/

/-- The struct `taggedPacket`. -/
structure taggedPacket where
  P : Bytes
  Addr : Addr
deriving DecidableEq, Repr

/-- Modelled from the spec: the Remote Tracking Table (`RemoteMap`), whose
source is not among the files: "a concurrency-safe mapping from peer address
to an outgoing-packet queue", each queue "bounded, capacity 32 entries, FIFO".
Idle eviction depends on real time and is not modelled. -/
structure RemoteMap where
  timeout : Nat
  entries : List (Addr × Chan Bytes)
deriving DecidableEq, Repr

/-- Modelled from the spec: `NewRemoteMap(timeout)`, an empty table. -/
def NewRemoteMap (timeout : Nat) : RemoteMap := ⟨timeout, []⟩

/-- Modelled from the spec: `queueFor(address) -> queue`, "returns the existing
queue or atomically creates one". -/
def RemoteMap.SendQueue (m : RemoteMap) (addr : Addr) : RemoteMap × Chan Bytes :=
  match m.entries.lookup addr with
  | some q => (m, q)
  | none => ({ m with entries := m.entries ++ [(addr, Chan.make 32)] }, Chan.make 32)

/-- The effect on the table of a send that changed the queue of `addr` to `q`. -/
def RemoteMap.store (m : RemoteMap) (addr : Addr) (q : Chan Bytes) : RemoteMap :=
  { m with entries := m.entries.map (fun e => if e.1 = addr then (e.1, q) else e) }

/-- The struct `QueuePacketConn`. -/
structure QueuePacketConn where
  remotes : RemoteMap
  localAddr : Addr
  recvQueue : Chan taggedPacket
  closeOnce : Bool
  closed : Bool
  err : Option Error
deriving DecidableEq, Repr

/-- The values returned by `ReadFrom`, with the caller's buffer after the call. -/
structure ReadResult where
  n : Nat
  addr : Option Addr
  err : Option Error
  p : Bytes
deriving DecidableEq, Repr

/-- The values returned by `WriteTo`. -/
structure WriteResult where
  n : Nat
  err : Option Error
deriving DecidableEq, Repr

namespace QueuePacketConn

/-- The function `NewQueuePacketConn`. -/
def NewQueuePacketConn (localAddr : Addr) (timeout : Nat) : QueuePacketConn :=
  { remotes := NewRemoteMap timeout
    localAddr := localAddr
    recvQueue := Chan.make 32
    closeOnce := false
    closed := false
    err := none }

/-- The method `LocalAddr`. -/
def LocalAddr (c : QueuePacketConn) : Addr := c.localAddr

/-- The method `QueueIncoming`. -/
def QueueIncoming (c : QueuePacketConn) (p : Bytes) (addr : Addr) : QueuePacketConn :=
  if c.closed then
    -- If we're closed, silently drop it.
    c
  else
    -- Copy the slice so that the caller may reuse p.
    let buf := (copy (make p.length) p).1
    match c.recvQueue.trySend ⟨buf, addr⟩ with
    | some q => { c with recvQueue := q }
    | none => c -- Silently drop incoming packets if the receive queue is full.

/-- The method `OutgoingQueue`. -/
def OutgoingQueue (c : QueuePacketConn) (addr : Addr) : QueuePacketConn × Chan Bytes :=
  let r := c.remotes.SendQueue addr
  ({ c with remotes := r.1 }, r.2)

/-- The method `ReadFrom`. The second `select` waits for the close or for a
packet; within one call the latch read by the first `select` is unchanged. -/
def ReadFrom (c : QueuePacketConn) (p : Bytes) : Outcome QueuePacketConn ReadResult :=
  if c.closed then
    match c.err with
    | none => .fault
    | some e => .ret c ⟨0, none, some (.opError "read" c.LocalAddr.network none c.LocalAddr e), p⟩
  else if c.closed then
    match c.err with
    | none => .fault
    | some e => .ret c ⟨0, none, some (.opError "read" c.LocalAddr.network none c.LocalAddr e), p⟩
  else
    match c.recvQueue.tryRecv with
    | none => .pending c
    | some (packet, q) =>
      let r := copy p packet.P
      .ret { c with recvQueue := q } ⟨r.2, some packet.Addr, none, r.1⟩

/-- The method `WriteTo`. -/
def WriteTo (c : QueuePacketConn) (p : Bytes) (addr : Addr) : Outcome QueuePacketConn WriteResult :=
  if c.closed then
    match c.err with
    | none => .fault
    | some e => .ret c ⟨0, some (.opError "write" c.LocalAddr.network none c.LocalAddr e)⟩
  else
    -- Copy the slice so that the caller may reuse p.
    let buf := (copy (make p.length) p).1
    let r := c.remotes.SendQueue addr
    match r.2.trySend buf with
    | some q => .ret { c with remotes := r.1.store addr q } ⟨buf.length, none⟩
    | none => .ret { c with remotes := r.1 } ⟨buf.length, none⟩

/-- The method `closeWithError`. -/
def closeWithError (c : QueuePacketConn) (err : Option Error) :
    Outcome QueuePacketConn (Option Error) :=
  if c.closeOnce then
    -- !firstClose
    match c.err with
    | none => .fault
    | some e => .ret c (some (.opError "close" c.LocalAddr.network none c.LocalAddr e))
  else if c.closed then
    .fault -- close of a closed channel
  else
    let err := match err with
      | none => errClosed
      | some e => e
    .ret { c with closeOnce := true, err := some err, closed := true } none

/-- The method `Close`. -/
def Close (c : QueuePacketConn) : Outcome QueuePacketConn (Option Error) :=
  c.closeWithError none

/-- The method `SetDeadline`. -/
def SetDeadline (_c : QueuePacketConn) (_t : Nat) : Option Error := some errNotImplemented

/-- The method `SetReadDeadline`. -/
def SetReadDeadline (_c : QueuePacketConn) (_t : Nat) : Option Error := some errNotImplemented

/-- The method `SetWriteDeadline`. -/
def SetWriteDeadline (_c : QueuePacketConn) (_t : Nat) : Option Error := some errNotImplemented

end QueuePacketConn

/-! ## Underlying stream connections -/

/-- What an underlying stream carries, one item per completed write. -/
inductive WireItem where
  /-- bytes written as they are with the method Write of the connection -/
  | raw (b : Bytes)
  /-- one encapsulated (length-prefixed) packet -/
  | packet (p : Bytes)
deriving DecidableEq, Repr

/-- A `net.Conn` as the adapters observe it: its remote address, whether the
stream is broken (every write then fails with that error), whether `Close` has
been called, what has been written to it, and the packets the peer still
delivers before the stream ends. -/
structure Conn where
  remote : Addr
  broken : Option Error
  closed : Bool
  sent : List WireItem
  incoming : List Bytes
deriving DecidableEq, Repr

/-- The error of an operation on a connection after its `Close`. -/
def errUseOfClosed : Error := .other "use of closed network connection"

/-- The error `io.EOF`. -/
def errEOF : Error := .other "EOF"

namespace Conn

/-- The method `RemoteAddr` of `net.Conn`. -/
def RemoteAddr (conn : Conn) : Addr := conn.remote

/-- The method `Write` of `net.Conn`; the adapters ignore the byte count. A
write fails after `Close`, as on the connections of package net, and on a
broken stream; a write that succeeds is not split. -/
def Write (conn : Conn) (b : Bytes) : Conn × Option Error :=
  if conn.closed then (conn, some errUseOfClosed)
  else match conn.broken with
    | some e => (conn, some e)
    | none => ({ conn with sent := conn.sent ++ [.raw b] }, none)

/-- The method `Close` of `net.Conn`; the adapters ignore its result. -/
def Close (conn : Conn) : Conn := { conn with closed := true }

end Conn

/-- A `bufio.Writer`: what has been written to it and not flushed. -/
structure Writer where
  buffered : List WireItem
deriving DecidableEq, Repr

/-- The expression `bufio.NewWriter(conn)`. -/
def NewWriter : Writer := ⟨[]⟩

/-- Modelled from the spec: `WritePacket`, whose source is not among the
files: "encode(writer, packet) -> error. Encoding writes a length prefix
followed by exactly that many payload bytes". The frame goes to the buffer of
the writer. -/
def WritePacket (bw : Writer) (p : Bytes) : Writer × Option Error :=
  ({ buffered := bw.buffered ++ [.packet p] }, none)

/-- The method `Flush` of `bufio.Writer`, on the connection it wraps. -/
def Writer.Flush (bw : Writer) (conn : Conn) : Writer × Conn × Option Error :=
  if conn.closed then (bw, conn, some errUseOfClosed)
  else match conn.broken with
    | some e => (bw, conn, some e)
    | none => ({ buffered := [] }, { conn with sent := conn.sent ++ bw.buffered }, none)

/-- Modelled from the spec: `ReadPacket`, whose source is not among the
files: "decode(reader) -> (packet, error)", failing "with an end-of-stream
error when the underlying stream is exhausted". -/
def ReadPacket (conn : Conn) : Conn × Bytes × Option Error :=
  if conn.closed then (conn, [], some errUseOfClosed)
  else match conn.incoming with
    | [] => (conn, [], some errEOF)
    | p :: rest => ({ conn with incoming := rest }, p, none)

/-! ## Goroutines of an exchange -/

/-- Where an inbound goroutine stands: running, possibly holding a decoded
packet that it could not yet send to `recvQueue`, or returned. -/
inductive Task where
  | running (held : Option Bytes)
  | exited
deriving DecidableEq, Repr

/-- The locals that `dialAndExchange` / `exchange` shares with its goroutines:
the counter of `wg`, whether `done` is closed, and the goroutines. -/
structure Exchange where
  wg : Int
  done : Bool
  readers : List Task
  outbound : Bool
deriving DecidableEq, Repr

/-- The call `wg.Done()`: it panics when the counter becomes negative. -/
def wgDone (x : Exchange) : Option Exchange :=
  if x.wg - 1 < 0 then none else some { x with wg := x.wg - 1 }

/-- The call `close(done)`: it panics when the channel is already closed. -/
def closeDone (x : Exchange) : Option Exchange :=
  if x.done then none else some { x with done := true }

/-- The return of inbound goroutine `i`: its deferred calls run, last
registered first: `close(done)`, then `wg.Done()`. -/
def inboundExit (x : Exchange) (i : Nat) : Option Exchange :=
  match closeDone { x with readers := x.readers.set i .exited } with
  | none => none
  | some x1 => wgDone x1

/-- One event of an execution: a step of a goroutine, or a call by the user of
the adapter. -/
inductive Ev where
  | inbound (i : Nat)
  | outbound
  | WriteTo (p : Bytes) (addr : Addr)
  | ReadFrom (p : Bytes)
  | Close
deriving DecidableEq, Repr

/-- The state left by a call made by a concurrent user; `none` on a panic. -/
def Outcome.state {σ α : Type} : Outcome σ α → Option σ
  | .ret s _ => some s
  | .pending s => some s
  | .fault => none

/-! ## redialpacketconn.go -/

/-- The struct `RedialPacketConn`. -/
structure RedialPacketConn where
  sessionID : SessionID
  remoteAddr : Addr
  recvQueue : Chan Bytes
  sendQueue : Chan Bytes
  closeOnce : Bool
  closed : Bool
  ptconn : Conn
  err : Option Error
deriving DecidableEq, Repr

namespace RedialPacketConn

/-- The struct that `NewRedialPacketConn` builds; the goroutine it starts is
`NewRedialPacketConn_func1`. -/
def NewRedialPacketConn (sessionID : SessionID) (ptconn : Conn) : RedialPacketConn :=
  { sessionID := sessionID
    remoteAddr := ptconn.RemoteAddr
    recvQueue := Chan.make 32
    sendQueue := Chan.make 32
    closeOnce := false
    closed := false
    ptconn := ptconn
    err := none }

/-- The method `ReadFrom`. -/
def ReadFrom (c : RedialPacketConn) (p : Bytes) : Outcome RedialPacketConn ReadResult :=
  if c.closed then
    match c.err with
    | none => .fault
    | some e => .ret c ⟨0, none,
        some (.opError "read" c.remoteAddr.network (some c.sessionID) c.remoteAddr e), p⟩
  else if c.closed then
    match c.err with
    | none => .fault
    | some e => .ret c ⟨0, none,
        some (.opError "read" c.remoteAddr.network (some c.sessionID) c.remoteAddr e), p⟩
  else
    match c.recvQueue.tryRecv with
    | none => .pending c
    | some (buf, q) =>
      let r := copy p buf
      .ret { c with recvQueue := q } ⟨r.2, some c.remoteAddr, none, r.1⟩

/-- The method `WriteTo`. -/
def WriteTo (c : RedialPacketConn) (p : Bytes) (_addr : Addr) :
    Outcome RedialPacketConn WriteResult :=
  if c.closed then
    match c.err with
    | none => .fault
    | some e => .ret c ⟨0,
        some (.opError "write" c.remoteAddr.network (some c.sessionID) c.remoteAddr e)⟩
  else
    -- Copy the slice so that the caller may reuse p.
    let buf := (copy (make p.length) p).1
    match c.sendQueue.trySend buf with
    | some q => .ret { c with sendQueue := q } ⟨buf.length, none⟩
    | none => .ret c ⟨buf.length, none⟩ -- Silently drop outgoing packets if the send queue is full.

/-- The method `closeWithError`. -/
def closeWithError (c : RedialPacketConn) (err : Option Error) :
    Outcome RedialPacketConn (Option Error) :=
  if c.closeOnce then
    -- !firstClose
    match c.err with
    | none => .fault
    | some e => .ret c
        (some (.opError "close" c.remoteAddr.network (some c.sessionID) c.remoteAddr e))
  else if c.closed then
    .fault -- close of a closed channel
  else
    let err := match err with
      | none => errClosed
      | some e => e
    .ret { c with closeOnce := true, err := some err, closed := true } none

/-- The method `Close`. -/
def Close (c : RedialPacketConn) : Outcome RedialPacketConn (Option Error) :=
  c.closeWithError none

/-- The method `LocalAddr`: the session identifier, as an address. -/
def LocalAddr (c : RedialPacketConn) : SessionID := c.sessionID

/-- The method `RemoteAddr`. -/
def RemoteAddr (c : RedialPacketConn) : Addr := c.remoteAddr

/-- The method `SetDeadline`. -/
def SetDeadline (_c : RedialPacketConn) (_t : Nat) : Option Error := some errNotImplemented

/-- The method `SetReadDeadline`. -/
def SetReadDeadline (_c : RedialPacketConn) (_t : Nat) : Option Error := some errNotImplemented

/-- The method `SetWriteDeadline`. -/
def SetWriteDeadline (_c : RedialPacketConn) (_t : Nat) : Option Error := some errNotImplemented

/-- The `select` of the first goroutine of `dialAndExchange`, with packet `p`
in hand: return when the adapter is closed, else send `p` to `recvQueue`, or
keep waiting while the queue is full. -/
def deliver (c : RedialPacketConn) (x : Exchange) (p : Bytes) :
    Option (RedialPacketConn × Exchange) :=
  if c.closed then (inboundExit x 0).map (fun x1 => (c, x1))
  else match c.recvQueue.trySend p with
    | some q => some ({ c with recvQueue := q }, { x with readers := x.readers.set 0 (.running none) })
    | none => some (c, { x with readers := x.readers.set 0 (.running (some p)) })

/-- One turn of the first goroutine of `dialAndExchange` (the one that reads
encapsulated packets from the connection); `none` is a panic. -/
def inbound (s : RedialPacketConn × Exchange) : Option (RedialPacketConn × Exchange) :=
  match s.2.readers[0]? with
  | some (Task.running none) =>
    let r := ReadPacket s.1.ptconn
    match r.2.2 with
    | some _ => (inboundExit s.2 0).map (fun x1 => ({ s.1 with ptconn := r.1 }, x1))
    | none => deliver { s.1 with ptconn := r.1 } s.2 r.2.1
  | some (Task.running (some p)) => deliver s.1 s.2 p
  | _ => some s

/-- The return of the second goroutine of `dialAndExchange`: its deferred calls
run, last registered first: `conn.Close()`, then `wg.Done()`. -/
def outboundExit (c : RedialPacketConn) (x : Exchange) : Option (RedialPacketConn × Exchange) :=
  (wgDone { x with outbound := false }).map (fun x1 => ({ c with ptconn := c.ptconn.Close }, x1))

/-- One turn of the second goroutine of `dialAndExchange` (the one that writes
the packets of `sendQueue` to the connection); `none` is a panic. When several
cases of its `select` are ready, the first one in program order is taken. Its
`bufio.Writer` is empty at the start of every turn. -/
def outbound (s : RedialPacketConn × Exchange) : Option (RedialPacketConn × Exchange) :=
  if !s.2.outbound then some s
  else if s.1.closed then outboundExit s.1 s.2
  else if s.2.done then outboundExit s.1 s.2
  else match s.1.sendQueue.tryRecv with
    | none => some s
    | some (p, q) =>
      let c1 := { s.1 with sendQueue := q }
      let w := WritePacket NewWriter p
      match w.2 with
      | some _ => outboundExit c1 s.2
      | none =>
        let f := w.1.Flush c1.ptconn
        match f.2.2 with
        | some _ => outboundExit { c1 with ptconn := f.2.1 } s.2
        | none => some ({ c1 with ptconn := f.2.1 }, s.2)

/-- One event of an execution of `dialAndExchange`; `none` is a panic. -/
def step (e : Ev) (s : RedialPacketConn × Exchange) : Option (RedialPacketConn × Exchange) :=
  match e with
  | .inbound _ => inbound s
  | .outbound => outbound s
  | .WriteTo p addr => (s.1.WriteTo p addr).state.map (fun c => (c, s.2))
  | .ReadFrom p => (s.1.ReadFrom p).state.map (fun c => (c, s.2))
  | .Close => s.1.Close.state.map (fun c => (c, s.2))

/-- The call `wg.Wait()` of `dialAndExchange` under a schedule: it returns as
soon as the counter is zero. -/
def wait : List Ev → RedialPacketConn × Exchange → Outcome (RedialPacketConn × Exchange) Unit
  | [], s => if s.2.wg = 0 then .ret s () else .pending s
  | e :: es, s =>
    if s.2.wg = 0 then .ret s ()
    else match step e s with
      | none => .fault
      | some s1 => wait es s1

/-- The method `dialAndExchange`, under the schedule `sched` of its goroutines. -/
def dialAndExchange (sched : List Ev) (c : RedialPacketConn) :
    Outcome RedialPacketConn (Option Error) :=
  let conn := c.ptconn
  -- Begin by sending the session identifier.
  let w := conn.Write c.sessionID.bytes
  match w.2 with
  | some _ =>
    -- Errors after the dial are not fatal but cause a redial.
    .ret { c with ptconn := w.1.Close } none
  | none =>
    let x : Exchange := { wg := 2, done := false, readers := [.running none], outbound := true }
    -- Exchange packets until the connection is terminated.
    match wait sched ({ c with ptconn := w.1 }, x) with
    | .ret s _ => .ret { s.1 with ptconn := s.1.ptconn.Close } none
    | .pending s => .pending s.1
    | .fault => .fault

/-- The method `loop`; each turn of the loop takes the schedule of one
exchange, and the loop is still running when the schedules are used up. -/
def loop : List (List Ev) → RedialPacketConn → Outcome RedialPacketConn (Option Error)
  | [], c => if c.closed then .ret c none else .pending c
  | sched :: rest, c =>
    if c.closed then .ret c none
    else match dialAndExchange sched c with
      | .ret c1 (some err) => .ret c1 (some err)
      | .ret c1 none => loop rest c1
      | .pending c1 => .pending c1
      | .fault => .fault

/-- The goroutine that `NewRedialPacketConn` starts: `c.closeWithError(c.loop())`. -/
def NewRedialPacketConn_func1 (scheds : List (List Ev)) (c : RedialPacketConn) :
    Outcome RedialPacketConn (Option Error) :=
  match loop scheds c with
  | .ret c1 err => c1.closeWithError err
  | .pending c1 => .pending c1
  | .fault => .fault

end RedialPacketConn

/-! ## round-robin.go -/

/-- The struct `RoundRobinPacketConn`; `state` is a `uint32`. -/
structure RoundRobinPacketConn where
  sessionID : SessionID
  remoteAddr : Addr
  recvQueue : Chan Bytes
  sendQueue : Chan Bytes
  closeOnce : Bool
  closed : Bool
  connList : List Conn
  err : Option Error
  state : Nat
deriving DecidableEq, Repr

namespace RoundRobinPacketConn

/-- The struct that `NewRoundRobinPacketConn` builds; the goroutine it starts
is `NewRoundRobinPacketConn_func1`. -/
def NewRoundRobinPacketConn (sessionID : SessionID) (connList : List Conn) (remote : Addr) :
    RoundRobinPacketConn :=
  { sessionID := sessionID
    remoteAddr := remote
    recvQueue := Chan.make 32
    sendQueue := Chan.make 32
    closeOnce := false
    closed := false
    connList := connList
    err := none
    state := 0 }

/-- The method `getConn`: `atomic.AddUint32(&c.state, 1)` stores and returns
the incremented counter (modulo 2^32), and the connection returned is
`c.connList[index % uint32(len(c.connList))]`, given here by its position in
`connList`. The result is `none` on the panic of a division by zero. -/
def getConn (c : RoundRobinPacketConn) : Option (RoundRobinPacketConn × Nat) :=
  let index := (c.state + 1) % 2 ^ 32
  let n := c.connList.length % 2 ^ 32
  if n = 0 then none
  else some ({ c with state := index }, index % n)

/-- The method `ReadFrom`. -/
def ReadFrom (c : RoundRobinPacketConn) (p : Bytes) : Outcome RoundRobinPacketConn ReadResult :=
  if c.closed then
    match c.err with
    | none => .fault
    | some e => .ret c ⟨0, none,
        some (.opError "read" c.remoteAddr.network (some c.sessionID) c.remoteAddr e), p⟩
  else if c.closed then
    match c.err with
    | none => .fault
    | some e => .ret c ⟨0, none,
        some (.opError "read" c.remoteAddr.network (some c.sessionID) c.remoteAddr e), p⟩
  else
    match c.recvQueue.tryRecv with
    | none => .pending c
    | some (buf, q) =>
      let r := copy p buf
      .ret { c with recvQueue := q } ⟨r.2, some c.remoteAddr, none, r.1⟩

/-- The method `WriteTo`. -/
def WriteTo (c : RoundRobinPacketConn) (p : Bytes) (_addr : Addr) :
    Outcome RoundRobinPacketConn WriteResult :=
  if c.closed then
    match c.err with
    | none => .fault
    | some e => .ret c ⟨0,
        some (.opError "write" c.remoteAddr.network (some c.sessionID) c.remoteAddr e)⟩
  else
    -- Copy the slice so that the caller may reuse p.
    let buf := (copy (make p.length) p).1
    match c.sendQueue.trySend buf with
    | some q => .ret { c with sendQueue := q } ⟨buf.length, none⟩
    | none => .ret c ⟨buf.length, none⟩ -- Silently drop outgoing packets if the send queue is full.

/-- The method `closeWithError`. -/
def closeWithError (c : RoundRobinPacketConn) (err : Option Error) :
    Outcome RoundRobinPacketConn (Option Error) :=
  if c.closeOnce then
    -- !firstClose
    match c.err with
    | none => .fault
    | some e => .ret c
        (some (.opError "close" c.remoteAddr.network (some c.sessionID) c.remoteAddr e))
  else if c.closed then
    .fault -- close of a closed channel
  else
    let err := match err with
      | none => errClosed
      | some e => e
    .ret { c with closeOnce := true, err := some err, closed := true } none

/-- The method `Close`. -/
def Close (c : RoundRobinPacketConn) : Outcome RoundRobinPacketConn (Option Error) :=
  c.closeWithError none

/-- The method `LocalAddr`: the session identifier, as an address. -/
def LocalAddr (c : RoundRobinPacketConn) : SessionID := c.sessionID

/-- The method `RemoteAddr`. -/
def RemoteAddr (c : RoundRobinPacketConn) : Addr := c.remoteAddr

/-- The method `SetDeadline`. -/
def SetDeadline (_c : RoundRobinPacketConn) (_t : Nat) : Option Error := some errNotImplemented

/-- The method `SetReadDeadline`. -/
def SetReadDeadline (_c : RoundRobinPacketConn) (_t : Nat) : Option Error :=
  some errNotImplemented

/-- The method `SetWriteDeadline`. -/
def SetWriteDeadline (_c : RoundRobinPacketConn) (_t : Nat) : Option Error :=
  some errNotImplemented

/-- The first loop of `exchange`: the session identifier is written to each
connection in turn, and the first error ends the loop. The result is the
connections after the writes and that error. -/
def writeSessionIDs (sessionID : SessionID) : List Conn → List Conn × Option Error
  | [] => ([], none)
  | conn :: rest =>
    let w := conn.Write sessionID.bytes
    match w.2 with
    | some err => (w.1 :: rest, some err)
    | none =>
      let r := writeSessionIDs sessionID rest
      (w.1 :: r.1, r.2)

/-- The `select` of inbound goroutine `i` of `exchange`, with packet `p` in
hand: return when the adapter is closed, else send `p` to `recvQueue`, or keep
waiting while the queue is full. -/
def deliver (c : RoundRobinPacketConn) (x : Exchange) (i : Nat) (p : Bytes) :
    Option (RoundRobinPacketConn × Exchange) :=
  if c.closed then (inboundExit x i).map (fun x1 => (c, x1))
  else match c.recvQueue.trySend p with
    | some q => some ({ c with recvQueue := q }, { x with readers := x.readers.set i (.running none) })
    | none => some (c, { x with readers := x.readers.set i (.running (some p)) })

/-- One turn of inbound goroutine `i` of `exchange`, the one started for
`connList[i]`; `none` is a panic. Each goroutine reads the connection of its
own iteration of the `range` loop, which is the meaning of the closure over
`conn` from Go 1.22 on; under an earlier language version the closures share
the variable `conn`, and every goroutine that starts after the loop has ended
reads the last connection. The sources carry no go.mod that would fix the
version. What a goroutine does when it returns does not depend on this. -/
def inbound (i : Nat) (s : RoundRobinPacketConn × Exchange) :
    Option (RoundRobinPacketConn × Exchange) :=
  match s.2.readers[i]?, s.1.connList[i]? with
  | some (Task.running none), some conn =>
    let r := ReadPacket conn
    let c1 := { s.1 with connList := s.1.connList.set i r.1 }
    match r.2.2 with
    | some _ => (inboundExit s.2 i).map (fun x1 => (c1, x1))
    | none => deliver c1 s.2 i r.2.1
  | some (Task.running (some p)), _ => deliver s.1 s.2 i p
  | _, _ => some s

/-- The return of the outbound goroutine of `exchange`: its deferred calls
run: `conn.Close()` for every connection, then `wg.Done()`. -/
def outboundExit (c : RoundRobinPacketConn) (x : Exchange) :
    Option (RoundRobinPacketConn × Exchange) :=
  (wgDone { x with outbound := false }).map
    (fun x1 => ({ c with connList := c.connList.map Conn.Close }, x1))

/-- One turn of the outbound goroutine of `exchange`; `none` is a panic. When
several cases of its `select` are ready, the first one in program order is
taken. -/
def outbound (s : RoundRobinPacketConn × Exchange) : Option (RoundRobinPacketConn × Exchange) :=
  if !s.2.outbound then some s
  else if s.1.closed then outboundExit s.1 s.2
  else if s.2.done then outboundExit s.1 s.2
  else match s.1.sendQueue.tryRecv with
    | none => some s
    | some (p, q) =>
      match getConn { s.1 with sendQueue := q } with
      | none => none
      | some (c2, i) =>
        match c2.connList[i]? with
        | none => none
        | some conn =>
          let w := WritePacket NewWriter p
          match w.2 with
          | some _ => outboundExit c2 s.2
          | none =>
            let f := w.1.Flush conn
            let c3 := { c2 with connList := c2.connList.set i f.2.1 }
            match f.2.2 with
            | some _ => outboundExit c3 s.2
            | none => some (c3, s.2)

/-- One event of an execution of `exchange`; `none` is a panic. -/
def step (e : Ev) (s : RoundRobinPacketConn × Exchange) :
    Option (RoundRobinPacketConn × Exchange) :=
  match e with
  | .inbound i => inbound i s
  | .outbound => outbound s
  | .WriteTo p addr => (s.1.WriteTo p addr).state.map (fun c => (c, s.2))
  | .ReadFrom p => (s.1.ReadFrom p).state.map (fun c => (c, s.2))
  | .Close => s.1.Close.state.map (fun c => (c, s.2))

/-- The events of a schedule, one after the other; `none` is a panic. -/
def run : List Ev → RoundRobinPacketConn × Exchange → Option (RoundRobinPacketConn × Exchange)
  | [], s => some s
  | e :: es, s =>
    match step e s with
    | none => none
    | some s1 => run es s1

/-- The call `wg.Wait()` of `exchange` under a schedule: it returns as soon as
the counter is zero; goroutines that are still running then are not followed
further. -/
def wait : List Ev → RoundRobinPacketConn × Exchange →
    Outcome (RoundRobinPacketConn × Exchange) Unit
  | [], s => if s.2.wg = 0 then .ret s () else .pending s
  | e :: es, s =>
    if s.2.wg = 0 then .ret s ()
    else match step e s with
      | none => .fault
      | some s1 => wait es s1

/-- The locals of `exchange` once its goroutines are started: `wg.Add(2)`, a
fresh `done`, one inbound goroutine for each connection and the outbound one. -/
def spawn (c : RoundRobinPacketConn) : Exchange :=
  { wg := 2
    done := false
    readers := List.replicate c.connList.length (.running none)
    outbound := true }

/-- The method `exchange`, under the schedule `sched` of its goroutines. -/
def exchange (sched : List Ev) (c : RoundRobinPacketConn) :
    Outcome RoundRobinPacketConn (Option Error) :=
  -- Begin by sending the session identifier to each connection.
  let w := writeSessionIDs c.sessionID c.connList
  let c1 := { c with connList := w.1 }
  match w.2 with
  | some err =>
    -- errors are fatal
    .ret c1 (some err)
  | none =>
    -- Exchange packets until the connection is terminated.
    match wait sched (c1, spawn c1) with
    | .ret s _ => .ret s.1 none
    | .pending s => .pending s.1
    | .fault => .fault

/-- The method `loop`; each turn of the loop takes the schedule of one
exchange, and the loop is still running when the schedules are used up. -/
def loop : List (List Ev) → RoundRobinPacketConn → Outcome RoundRobinPacketConn (Option Error)
  | [], c => if c.closed then .ret c none else .pending c
  | sched :: rest, c =>
    if c.closed then .ret c none
    else match exchange sched c with
      | .ret c1 (some err) => .ret c1 (some err)
      | .ret c1 none => loop rest c1
      | .pending c1 => .pending c1
      | .fault => .fault

/-- The goroutine that `NewRoundRobinPacketConn` starts:
`c.closeWithError(c.loop())`. -/
def NewRoundRobinPacketConn_func1 (scheds : List (List Ev)) (c : RoundRobinPacketConn) :
    Outcome RoundRobinPacketConn (Option Error) :=
  match loop scheds c with
  | .ret c1 err => c1.closeWithError err
  | .pending c1 => .pending c1
  | .fault => .fault

end RoundRobinPacketConn

/-! ## Sequences of calls and invariants -/

/-- Calls made one after the other, each on the receiver left by the one
before; the results are collected in order. -/
def Outcome.seq {σ α β : Type} (f : β → σ → Outcome σ α) : List β → σ → Outcome σ (List α)
  | [], s => .ret s []
  | b :: bs, s =>
    match f b s with
    | .ret s1 a =>
      match Outcome.seq f bs s1 with
      | .ret s2 as => .ret s2 (a :: as)
      | .pending s2 => .pending s2
      | .fault => .fault
    | .pending s1 => .pending s1
    | .fault => .fault

/-- A call on an adapter, by the user or by the goroutine of the adapter. -/
inductive Call where
  | ReadFrom (p : Bytes)
  | WriteTo (p : Bytes) (addr : Addr)
  | closeWithError (err : Option Error)
  | Close
deriving DecidableEq, Repr

/-- A call on a `QueuePacketConn`; only the error it returns is kept. -/
def QueuePacketConn.call (k : Call) (c : QueuePacketConn) :
    Outcome QueuePacketConn (Option Error) :=
  match k with
  | .ReadFrom p =>
    match c.ReadFrom p with
    | .ret c1 r => .ret c1 r.err
    | .pending c1 => .pending c1
    | .fault => .fault
  | .WriteTo p addr =>
    match c.WriteTo p addr with
    | .ret c1 r => .ret c1 r.err
    | .pending c1 => .pending c1
    | .fault => .fault
  | .closeWithError err => c.closeWithError err
  | .Close => c.Close

/-- A call on a `RedialPacketConn`; only the error it returns is kept. -/
def RedialPacketConn.call (k : Call) (c : RedialPacketConn) :
    Outcome RedialPacketConn (Option Error) :=
  match k with
  | .ReadFrom p =>
    match c.ReadFrom p with
    | .ret c1 r => .ret c1 r.err
    | .pending c1 => .pending c1
    | .fault => .fault
  | .WriteTo p addr =>
    match c.WriteTo p addr with
    | .ret c1 r => .ret c1 r.err
    | .pending c1 => .pending c1
    | .fault => .fault
  | .closeWithError err => c.closeWithError err
  | .Close => c.Close

/-- A call on a `RoundRobinPacketConn`; only the error it returns is kept. -/
def RoundRobinPacketConn.call (k : Call) (c : RoundRobinPacketConn) :
    Outcome RoundRobinPacketConn (Option Error) :=
  match k with
  | .ReadFrom p =>
    match c.ReadFrom p with
    | .ret c1 r => .ret c1 r.err
    | .pending c1 => .pending c1
    | .fault => .fault
  | .WriteTo p addr =>
    match c.WriteTo p addr with
    | .ret c1 r => .ret c1 r.err
    | .pending c1 => .pending c1
    | .fault => .fault
  | .closeWithError err => c.closeWithError err
  | .Close => c.Close

/-- An adapter is open: `closeOnce` has not run and `closed` is not closed. -/
def QueuePacketConn.isOpen (c : QueuePacketConn) : Prop :=
  c.closeOnce = false ∧ c.closed = false

/-- An adapter is open: `closeOnce` has not run and `closed` is not closed. -/
def RedialPacketConn.isOpen (c : RedialPacketConn) : Prop :=
  c.closeOnce = false ∧ c.closed = false

/-- An adapter is open: `closeOnce` has not run and `closed` is not closed. -/
def RoundRobinPacketConn.isOpen (c : RoundRobinPacketConn) : Prop :=
  c.closeOnce = false ∧ c.closed = false

instance (c : QueuePacketConn) : Decidable c.isOpen := by
  unfold QueuePacketConn.isOpen; infer_instance

instance (c : RedialPacketConn) : Decidable c.isOpen := by
  unfold RedialPacketConn.isOpen; infer_instance

instance (c : RoundRobinPacketConn) : Decidable c.isOpen := by
  unfold RoundRobinPacketConn.isOpen; infer_instance

/-- The closed latch of an adapter has been tripped with terminal error `e`:
the state in which `closeWithError` leaves `closeOnce`, `closed` and `err`. -/
def QueuePacketConn.closedWith (c : QueuePacketConn) (e : Error) : Prop :=
  c.closeOnce = true ∧ c.closed = true ∧ c.err = some e

/-- The closed latch of an adapter has been tripped with terminal error `e`. -/
def RedialPacketConn.closedWith (c : RedialPacketConn) (e : Error) : Prop :=
  c.closeOnce = true ∧ c.closed = true ∧ c.err = some e

/-- The closed latch of an adapter has been tripped with terminal error `e`. -/
def RoundRobinPacketConn.closedWith (c : RoundRobinPacketConn) (e : Error) : Prop :=
  c.closeOnce = true ∧ c.closed = true ∧ c.err = some e

/-- A channel as the constructors of the adapters make it and the adapters
keep it: capacity 32, and never more values than the capacity. -/
def Chan.Inv {α : Type} (ch : Chan α) : Prop := ch.cap = 32 ∧ ch.buf.length ≤ 32

/-- The error `outer` is a `*net.OpError` of operation `op` that wraps `e`. -/
def Error.wraps (outer : Error) (op : String) (e : Error) : Prop :=
  outer.op = some op ∧ outer.unwrap = some e

/-! ## Concrete adapters, used to instantiate the theorems -/

/-- A healthy connection on which nothing has happened yet. -/
def freshConn : Conn :=
  { remote := ⟨"tcp", "192.0.2.1:443"⟩, broken := none, closed := false, sent := [], incoming := [] }

/-- A connection whose stream is broken: every write fails. -/
def brokenConn : Conn :=
  { remote := ⟨"tcp", "192.0.2.1:443"⟩, broken := some (.other "broken pipe"), closed := false,
    sent := [], incoming := [] }

/-- A session identifier. -/
def sid0 : SessionID := ⟨[1, 2, 3, 4, 5, 6, 7, 8]⟩

/-- A fresh `QueuePacketConn`. -/
def q0 : QueuePacketConn := QueuePacketConn.NewQueuePacketConn ⟨"tcp", "127.0.0.1:0"⟩ 60

/-- A fresh `RedialPacketConn` over a healthy connection. -/
def r0 : RedialPacketConn := RedialPacketConn.NewRedialPacketConn sid0 freshConn

/-- A fresh `RoundRobinPacketConn` over three healthy connections. -/
def rr0 : RoundRobinPacketConn :=
  RoundRobinPacketConn.NewRoundRobinPacketConn sid0 [freshConn, freshConn, freshConn]
    ⟨"tcp", "192.0.2.1:443"⟩

instance {α : Type} (ch : Chan α) : Decidable ch.Inv := by
  unfold Chan.Inv; infer_instance

/-- The error that `closeWithError(err)` stores on the first close: "If err is
nil, it becomes errClosed". -/
def terminal (err : Option Error) : Error :=
  match err with
  | none => errClosed
  | some e => e

/-- The error that call `k` returns on a `QueuePacketConn` closed with `e`. -/
def QueuePacketConn.closedErr (c : QueuePacketConn) (e : Error) : Call → Option Error
  | .ReadFrom _ => some (.opError "read" c.localAddr.network none c.localAddr e)
  | .WriteTo _ _ => some (.opError "write" c.localAddr.network none c.localAddr e)
  | .closeWithError _ => some (.opError "close" c.localAddr.network none c.localAddr e)
  | .Close => some (.opError "close" c.localAddr.network none c.localAddr e)

/-- The error that call `k` returns on a `RedialPacketConn` closed with `e`. -/
def RedialPacketConn.closedErr (c : RedialPacketConn) (e : Error) : Call → Option Error
  | .ReadFrom _ => some (.opError "read" c.remoteAddr.network (some c.sessionID) c.remoteAddr e)
  | .WriteTo _ _ => some (.opError "write" c.remoteAddr.network (some c.sessionID) c.remoteAddr e)
  | .closeWithError _ => some (.opError "close" c.remoteAddr.network (some c.sessionID) c.remoteAddr e)
  | .Close => some (.opError "close" c.remoteAddr.network (some c.sessionID) c.remoteAddr e)

/-- The error that call `k` returns on a `RoundRobinPacketConn` closed with `e`. -/
def RoundRobinPacketConn.closedErr (c : RoundRobinPacketConn) (e : Error) : Call → Option Error
  | .ReadFrom _ => some (.opError "read" c.remoteAddr.network (some c.sessionID) c.remoteAddr e)
  | .WriteTo _ _ => some (.opError "write" c.remoteAddr.network (some c.sessionID) c.remoteAddr e)
  | .closeWithError _ => some (.opError "close" c.remoteAddr.network (some c.sessionID) c.remoteAddr e)
  | .Close => some (.opError "close" c.remoteAddr.network (some c.sessionID) c.remoteAddr e)

/-- A `RoundRobinPacketConn` over three connections whose counter is two
increments away from the wrap-around of `uint32`. -/
def wrapConn : RoundRobinPacketConn := { rr0 with state := 4294967294 }

/-- The entry that QueueIncoming makes of a packet and its source. -/
def tag (x : Bytes × Addr) : taggedPacket := ⟨x.1, x.2⟩

/-- The calls QueueIncoming(p, addr), one after the other. -/
def QueuePacketConn.queueAll (ps : List (Bytes × Addr)) (c : QueuePacketConn) : QueuePacketConn :=
  ps.foldl (fun c x => c.QueueIncoming x.1 x.2) c

/-- Forty one-byte packets numbered 0 to 39, all for one address. -/
def forty : List (Bytes × Addr) :=
  (List.range 40).map (fun i => ([i.toUInt8], (⟨"tcp", "192.0.2.7:9"⟩ : Addr)))

/-- A `RoundRobinPacketConn` over two healthy connections on which the peer
sends nothing more. -/
def rr2 : RoundRobinPacketConn :=
  RoundRobinPacketConn.NewRoundRobinPacketConn sid0 [freshConn, freshConn] ⟨"tcp", "192.0.2.1:443"⟩

/-- Nine one-byte packets numbered 0 to 8. -/
def nine : List Bytes := (List.range 9).map (fun i => [i.toUInt8])

/-- What connection `k` of the set has been sent so far. -/
def RoundRobinPacketConn.sentTo (c : RoundRobinPacketConn) (k : Nat) : List WireItem :=
  match c.connList[k]? with
  | some conn => conn.sent
  | none => []

/-- The scenario of the round-robin fan-out: the packets `ps` are written with
`WriteTo`, one after the other, and then an exchange runs in which the outbound
goroutine takes one turn for each packet. -/
def RoundRobinPacketConn.fanOut (c : RoundRobinPacketConn) (ps : List Bytes) (addr : Addr) :
    Outcome RoundRobinPacketConn (Option Error) :=
  match Outcome.seq (fun p c => RoundRobinPacketConn.WriteTo c p addr) ps c with
  | .ret c1 _ => RoundRobinPacketConn.exchange (List.replicate ps.length .outbound) c1
  | .pending c1 => .pending c1
  | .fault => .fault

/-- A connection that accepts writes: not closed, and its stream not broken. -/
def Conn.healthy (conn : Conn) : Prop := conn.closed = false ∧ conn.broken = none

instance (conn : Conn) : Decidable conn.healthy := by
  unfold Conn.healthy; infer_instance

/-- A fresh `RedialPacketConn` over a connection whose stream is broken. -/
def rb : RedialPacketConn := RedialPacketConn.NewRedialPacketConn sid0 brokenConn

/-- A fresh `RoundRobinPacketConn` whose second connection is broken. -/
def rrb : RoundRobinPacketConn :=
  RoundRobinPacketConn.NewRoundRobinPacketConn sid0 [freshConn, brokenConn, freshConn]
    ⟨"tcp", "192.0.2.1:443"⟩

/-- An open `QueuePacketConn` that holds one packet of four bytes. -/
def qFull : QueuePacketConn := q0.QueueIncoming [1, 2, 3, 4] ⟨"tcp", "a"⟩

/-- An open `RedialPacketConn` whose inbound goroutine has queued one packet
of four bytes. -/
def rFull : RedialPacketConn := { r0 with recvQueue := ⟨32, [[1, 2, 3, 4]]⟩ }

/-- An open `RoundRobinPacketConn` whose inbound goroutines have queued one
packet of four bytes. -/
def rrFull : RoundRobinPacketConn := { rr0 with recvQueue := ⟨32, [[1, 2, 3, 4]]⟩ }

/-- A fresh `RoundRobinPacketConn` over the one broken connection. -/
def rrb1 : RoundRobinPacketConn :=
  RoundRobinPacketConn.NewRoundRobinPacketConn sid0 [brokenConn] ⟨"tcp", "192.0.2.1:443"⟩

/-- The `RedialPacketConn` over the broken connection after a turn of its
loop: the connection is closed, the adapter is not. -/
def rbSpun : RedialPacketConn := { rb with ptconn := rb.ptconn.Close }

/-! ## client-config.go -/

/-- One element of the slices held by the field `Connections` of
`SplitPTConfig` (an anonymous struct in the source). -/
structure ConnectionConfig where
  BinPath : String
  Transport : String
  Args : List String
  Cert : String
  Bridge : String
deriving DecidableEq, Repr

/-- The struct `SplitPTConfig`. The Go map `Connections` is the list of its
keys with their values. -/
structure SplitPTConfig where
  SplittingAlg : String
  Connections : List (String × List ConnectionConfig)
deriving DecidableEq, Repr

/-- The index expression `m[key]` on a map of slices: the nil slice when the
key is absent (also when the map itself is nil). -/
def mapIndex (m : List (String × List ConnectionConfig)) (key : String) :
    List ConnectionConfig :=
  match m.lookup key with
  | some v => v
  | none => []

/-- One call of `log.Printf`: its first argument, which `Printf` takes as the
format, and the other arguments. -/
structure LogCall where
  format : String
  args : List String
deriving DecidableEq, Repr

/-- The values that `GetClientTOMLConfig` returns (a nil pointer and a nil
error are `none`), and the calls of `log.Printf` it made, in order. -/
structure ConfigResult where
  config : Option SplitPTConfig
  err : Option Error
  log : List LogCall
deriving DecidableEq, Repr

/-- The body of the `for` loop of `GetClientTOMLConfig`: what is logged for one
connection. -/
def logConnection (conn : ConnectionConfig) : List LogCall :=
  [⟨"Connections: ", []⟩, ⟨conn.Transport, []⟩, ⟨conn.Cert, []⟩, ⟨conn.Bridge, []⟩]

/-- The statements of `GetClientTOMLConfig` after its `switch`: the number of
connections and each connection are logged, and the configuration is returned
with a nil error. -/
def logConnections (config : SplitPTConfig) (log : List LogCall) : ConfigResult :=
  let conns := mapIndex config.Connections "connections"
  ⟨some config, none,
    log ++ [⟨"%v connections found", [toString conns.length]⟩]
      ++ (conns.map logConnection).flatten⟩

/-- The function `GetClientTOMLConfig`. `DecodeFile` stands for
`toml.DecodeFile` of the library github.com/BurntSushi/toml applied to the
zero value of `SplitPTConfig`: it gives the decoded configuration and the error
of the decoding. The `switch` on `config.SplittingAlg` compares the string with
each case for equality, in order. -/
def GetClientTOMLConfig (DecodeFile : String → SplitPTConfig × Option Error)
    (tomlFilename : String) : ConfigResult :=
  let log0 : List LogCall := [⟨"Decoding TOML", []⟩]
  let d := DecodeFile tomlFilename
  let config := d.1
  match d.2 with
  | some err => ⟨none, some err, log0 ++ [⟨"Error decoding TOML config", []⟩]⟩
  | none =>
    if config.SplittingAlg = "round-robin" then
      logConnections config (log0 ++ [⟨config.SplittingAlg, []⟩])
    else if config.SplittingAlg = "random" then
      logConnections config (log0 ++ [⟨config.SplittingAlg, []⟩])
    else
      ⟨none, some (.other "Invalid splitting algorithm in TOML"),
        log0 ++ [⟨"Invalid splitting algorithm", []⟩]⟩

/-- A configuration with the algorithm "round-robin" and two connections. -/
def cfgRoundRobin : SplitPTConfig :=
  { SplittingAlg := "round-robin"
    Connections := [("connections",
      [⟨"/usr/bin/lyrebird", "obfs4", [], "cert-a", "192.0.2.10:443"⟩,
       ⟨"/usr/bin/lyrebird", "obfs4", [], "cert-b", "192.0.2.11:443"⟩])] }

/-- A decoder that succeeds with `cfg` on every file. -/
def decodesTo (cfg : SplitPTConfig) : String → SplitPTConfig × Option Error :=
  fun _ => (cfg, none)

/-! ## Lemmas on the builtins and on channels -/

theorem copy_make (p : Bytes) : copy (make p.length) p = (p, p.length) := by
  simp [copy, make]

theorem Chan.trySend_of_lt {α : Type} (ch : Chan α) (x : α) (h : ch.buf.length < ch.cap) :
    ch.trySend x = some { ch with buf := ch.buf ++ [x] } := by
  simp [Chan.trySend, h]

theorem Chan.trySend_of_ge {α : Type} (ch : Chan α) (x : α) (h : ch.cap ≤ ch.buf.length) :
    ch.trySend x = none := by
  simp [Chan.trySend, Nat.not_lt.mpr h]

theorem Chan.Inv_make {α : Type} : (Chan.make 32 : Chan α).Inv := by
  simp [Chan.Inv, Chan.make]

theorem Chan.Inv_trySend {α : Type} (ch ch1 : Chan α) (x : α) (h : ch.Inv)
    (hs : ch.trySend x = some ch1) : ch1.Inv := by
  obtain ⟨h1, h2⟩ := h
  unfold Chan.trySend at hs
  by_cases hlt : ch.buf.length < ch.cap
  · simp [hlt] at hs
    subst hs
    exact ⟨h1, by simp; omega⟩
  · simp [hlt] at hs

theorem Chan.Inv_tryRecv {α : Type} (ch ch1 : Chan α) (x : α) (h : ch.Inv)
    (hr : ch.tryRecv = some (x, ch1)) : ch1.Inv := by
  obtain ⟨h1, h2⟩ := h
  unfold Chan.tryRecv at hr
  cases hb : ch.buf with
  | nil => simp [hb] at hr
  | cons y rest =>
    simp [hb] at hr
    obtain ⟨_, hr2⟩ := hr
    subst hr2
    rw [hb] at h2
    exact ⟨h1, by simp at h2 ⊢; omega⟩

theorem NewQueuePacketConn_open (localAddr : Addr) (timeout : Nat) :
    (QueuePacketConn.NewQueuePacketConn localAddr timeout).isOpen ∧
    (QueuePacketConn.NewQueuePacketConn localAddr timeout).recvQueue.Inv :=
  ⟨⟨rfl, rfl⟩, Chan.Inv_make⟩

theorem NewRedialPacketConn_open (sessionID : SessionID) (ptconn : Conn) :
    (RedialPacketConn.NewRedialPacketConn sessionID ptconn).isOpen ∧
    (RedialPacketConn.NewRedialPacketConn sessionID ptconn).recvQueue.Inv ∧
    (RedialPacketConn.NewRedialPacketConn sessionID ptconn).sendQueue.Inv :=
  ⟨⟨rfl, rfl⟩, Chan.Inv_make, Chan.Inv_make⟩

theorem NewRoundRobinPacketConn_open (sessionID : SessionID) (connList : List Conn)
    (remote : Addr) :
    (RoundRobinPacketConn.NewRoundRobinPacketConn sessionID connList remote).isOpen ∧
    (RoundRobinPacketConn.NewRoundRobinPacketConn sessionID connList remote).recvQueue.Inv ∧
    (RoundRobinPacketConn.NewRoundRobinPacketConn sessionID connList remote).sendQueue.Inv :=
  ⟨⟨rfl, rfl⟩, Chan.Inv_make, Chan.Inv_make⟩

namespace QueuePacketConn

theorem QueueIncoming_closed (c : QueuePacketConn) (p : Bytes) (addr : Addr)
    (h : c.closed = true) : c.QueueIncoming p addr = c := by
  simp [QueueIncoming, h]

theorem QueueIncoming_full (c : QueuePacketConn) (p : Bytes) (addr : Addr)
    (hge : c.recvQueue.cap ≤ c.recvQueue.buf.length) : c.QueueIncoming p addr = c := by
  unfold QueueIncoming
  by_cases hc : c.closed = true
  · simp [hc]
  · simp [hc, Chan.trySend_of_ge _ _ hge]

theorem QueueIncoming_room (c : QueuePacketConn) (p : Bytes) (addr : Addr)
    (ho : c.closed = false) (hlt : c.recvQueue.buf.length < c.recvQueue.cap) :
    c.QueueIncoming p addr =
      { c with recvQueue := ⟨c.recvQueue.cap, c.recvQueue.buf ++ [⟨p, addr⟩]⟩ } := by
  simp [QueueIncoming, ho, copy_make, Chan.trySend_of_lt _ _ hlt]

end QueuePacketConn

/-! ## Lemmas on closing -/

theorem Outcome.seq_fixed {σ α β : Type} (f : β → σ → Outcome σ α) (g : β → α) (s : σ)
    (h : ∀ b, f b s = .ret s (g b)) (bs : List β) :
    Outcome.seq f bs s = .ret s (bs.map g) := by
  induction bs with
  | nil => rfl
  | cons b bs ih => simp [Outcome.seq, h, ih]

namespace QueuePacketConn

theorem queue_closeWithError_open (c : QueuePacketConn) (err : Option Error) (h : c.isOpen) :
    c.closeWithError err =
      .ret { c with closeOnce := true, err := some (terminal err), closed := true } none := by
  obtain ⟨h1, h2⟩ := h
  cases err <;> simp [closeWithError, h1, h2, terminal]

theorem queue_closedWith_of_open (c : QueuePacketConn) (err : Option Error) :
    QueuePacketConn.closedWith { c with closeOnce := true, err := some (terminal err), closed := true }
      (terminal err) :=
  ⟨rfl, rfl, rfl⟩

theorem queue_closeWithError_closed (c : QueuePacketConn) (e : Error) (err : Option Error)
    (h : c.closedWith e) :
    c.closeWithError err = .ret c (some (.opError "close" c.localAddr.network none c.localAddr e)) := by
  obtain ⟨h1, _, h3⟩ := h
  simp [closeWithError, h1, h3, LocalAddr]

theorem queue_ReadFrom_closed (c : QueuePacketConn) (e : Error) (p : Bytes) (h : c.closedWith e) :
    c.ReadFrom p = .ret c ⟨0, none, some (.opError "read" c.localAddr.network none c.localAddr e), p⟩ := by
  obtain ⟨_, h2, h3⟩ := h
  simp [ReadFrom, h2, h3, LocalAddr]

theorem queue_WriteTo_closed (c : QueuePacketConn) (e : Error) (p : Bytes) (addr : Addr)
    (h : c.closedWith e) :
    c.WriteTo p addr = .ret c ⟨0, some (.opError "write" c.localAddr.network none c.localAddr e)⟩ := by
  obtain ⟨_, h2, h3⟩ := h
  simp [WriteTo, h2, h3, LocalAddr]

theorem queue_call_closed (c : QueuePacketConn) (e : Error) (h : c.closedWith e) (k : Call) :
    c.call k = .ret c (closedErr c e k) := by
  cases k with
  | ReadFrom p => simp [call, queue_ReadFrom_closed c e p h, closedErr]
  | WriteTo p a => simp [call, queue_WriteTo_closed c e p a h, closedErr]
  | closeWithError err => simp [call, queue_closeWithError_closed c e err h, closedErr]
  | Close => simp [call, Close, queue_closeWithError_closed c e none h, closedErr]

theorem queue_seq_call_closed (c : QueuePacketConn) (e : Error) (h : c.closedWith e) (calls : List Call) :
    Outcome.seq QueuePacketConn.call calls c = .ret c (calls.map (closedErr c e)) :=
  Outcome.seq_fixed QueuePacketConn.call (closedErr c e) c (queue_call_closed c e h) calls

end QueuePacketConn

namespace RedialPacketConn

theorem redial_closeWithError_open (c : RedialPacketConn) (err : Option Error) (h : c.isOpen) :
    c.closeWithError err =
      .ret { c with closeOnce := true, err := some (terminal err), closed := true } none := by
  obtain ⟨h1, h2⟩ := h
  cases err <;> simp [closeWithError, h1, h2, terminal]

theorem redial_closedWith_of_open (c : RedialPacketConn) (err : Option Error) :
    RedialPacketConn.closedWith { c with closeOnce := true, err := some (terminal err), closed := true }
      (terminal err) :=
  ⟨rfl, rfl, rfl⟩

theorem redial_closeWithError_closed (c : RedialPacketConn) (e : Error) (err : Option Error)
    (h : c.closedWith e) :
    c.closeWithError err = .ret c (some (.opError "close" c.remoteAddr.network (some c.sessionID) c.remoteAddr e)) := by
  obtain ⟨h1, _, h3⟩ := h
  simp [closeWithError, h1, h3]

theorem redial_ReadFrom_closed (c : RedialPacketConn) (e : Error) (p : Bytes) (h : c.closedWith e) :
    c.ReadFrom p = .ret c ⟨0, none, some (.opError "read" c.remoteAddr.network (some c.sessionID) c.remoteAddr e), p⟩ := by
  obtain ⟨_, h2, h3⟩ := h
  simp [ReadFrom, h2, h3]

theorem redial_WriteTo_closed (c : RedialPacketConn) (e : Error) (p : Bytes) (addr : Addr)
    (h : c.closedWith e) :
    c.WriteTo p addr = .ret c ⟨0, some (.opError "write" c.remoteAddr.network (some c.sessionID) c.remoteAddr e)⟩ := by
  obtain ⟨_, h2, h3⟩ := h
  simp [WriteTo, h2, h3]

theorem redial_call_closed (c : RedialPacketConn) (e : Error) (h : c.closedWith e) (k : Call) :
    c.call k = .ret c (closedErr c e k) := by
  cases k with
  | ReadFrom p => simp [call, redial_ReadFrom_closed c e p h, closedErr]
  | WriteTo p a => simp [call, redial_WriteTo_closed c e p a h, closedErr]
  | closeWithError err => simp [call, redial_closeWithError_closed c e err h, closedErr]
  | Close => simp [call, Close, redial_closeWithError_closed c e none h, closedErr]

theorem redial_seq_call_closed (c : RedialPacketConn) (e : Error) (h : c.closedWith e) (calls : List Call) :
    Outcome.seq RedialPacketConn.call calls c = .ret c (calls.map (closedErr c e)) :=
  Outcome.seq_fixed RedialPacketConn.call (closedErr c e) c (redial_call_closed c e h) calls

end RedialPacketConn

namespace RoundRobinPacketConn

theorem roundRobin_closeWithError_open (c : RoundRobinPacketConn) (err : Option Error) (h : c.isOpen) :
    c.closeWithError err =
      .ret { c with closeOnce := true, err := some (terminal err), closed := true } none := by
  obtain ⟨h1, h2⟩ := h
  cases err <;> simp [closeWithError, h1, h2, terminal]

theorem roundRobin_closedWith_of_open (c : RoundRobinPacketConn) (err : Option Error) :
    RoundRobinPacketConn.closedWith { c with closeOnce := true, err := some (terminal err), closed := true }
      (terminal err) :=
  ⟨rfl, rfl, rfl⟩

theorem roundRobin_closeWithError_closed (c : RoundRobinPacketConn) (e : Error) (err : Option Error)
    (h : c.closedWith e) :
    c.closeWithError err = .ret c (some (.opError "close" c.remoteAddr.network (some c.sessionID) c.remoteAddr e)) := by
  obtain ⟨h1, _, h3⟩ := h
  simp [closeWithError, h1, h3]

theorem roundRobin_ReadFrom_closed (c : RoundRobinPacketConn) (e : Error) (p : Bytes) (h : c.closedWith e) :
    c.ReadFrom p = .ret c ⟨0, none, some (.opError "read" c.remoteAddr.network (some c.sessionID) c.remoteAddr e), p⟩ := by
  obtain ⟨_, h2, h3⟩ := h
  simp [ReadFrom, h2, h3]

theorem roundRobin_WriteTo_closed (c : RoundRobinPacketConn) (e : Error) (p : Bytes) (addr : Addr)
    (h : c.closedWith e) :
    c.WriteTo p addr = .ret c ⟨0, some (.opError "write" c.remoteAddr.network (some c.sessionID) c.remoteAddr e)⟩ := by
  obtain ⟨_, h2, h3⟩ := h
  simp [WriteTo, h2, h3]

theorem roundRobin_call_closed (c : RoundRobinPacketConn) (e : Error) (h : c.closedWith e) (k : Call) :
    c.call k = .ret c (closedErr c e k) := by
  cases k with
  | ReadFrom p => simp [call, roundRobin_ReadFrom_closed c e p h, closedErr]
  | WriteTo p a => simp [call, roundRobin_WriteTo_closed c e p a h, closedErr]
  | closeWithError err => simp [call, roundRobin_closeWithError_closed c e err h, closedErr]
  | Close => simp [call, Close, roundRobin_closeWithError_closed c e none h, closedErr]

theorem roundRobin_seq_call_closed (c : RoundRobinPacketConn) (e : Error) (h : c.closedWith e) (calls : List Call) :
    Outcome.seq RoundRobinPacketConn.call calls c = .ret c (calls.map (closedErr c e)) :=
  Outcome.seq_fixed RoundRobinPacketConn.call (closedErr c e) c (roundRobin_call_closed c e h) calls

end RoundRobinPacketConn

theorem QueuePacketConn.queue_Close_again (c : QueuePacketConn) (h : c.isOpen) :
    ∃ c1 e, c.Close = .ret c1 none ∧
      c1 = { c with closeOnce := true, err := some errClosed, closed := true } ∧
      e.wraps "close" errClosed ∧
      ∀ n, Outcome.seq (fun (_ : Unit) c => QueuePacketConn.Close c) (List.replicate n ()) c1
        = .ret c1 (List.replicate n (some e)) := by
  refine ⟨_, .opError "close" c.localAddr.network none c.localAddr errClosed, QueuePacketConn.queue_closeWithError_open c none h, rfl, ⟨rfl, rfl⟩, fun n => ?_⟩
  have h := Outcome.seq_fixed (fun (_ : Unit) c => QueuePacketConn.Close c) (fun _ => _) _
    (fun _ => QueuePacketConn.queue_closeWithError_closed _ errClosed none
      (QueuePacketConn.queue_closedWith_of_open c none)) (List.replicate n ())
  simpa using h

theorem RedialPacketConn.redial_Close_again (c : RedialPacketConn) (h : c.isOpen) :
    ∃ c1 e, c.Close = .ret c1 none ∧
      c1 = { c with closeOnce := true, err := some errClosed, closed := true } ∧
      e.wraps "close" errClosed ∧
      ∀ n, Outcome.seq (fun (_ : Unit) c => RedialPacketConn.Close c) (List.replicate n ()) c1
        = .ret c1 (List.replicate n (some e)) := by
  refine ⟨_, .opError "close" c.remoteAddr.network (some c.sessionID) c.remoteAddr errClosed, RedialPacketConn.redial_closeWithError_open c none h, rfl, ⟨rfl, rfl⟩, fun n => ?_⟩
  have h := Outcome.seq_fixed (fun (_ : Unit) c => RedialPacketConn.Close c) (fun _ => _) _
    (fun _ => RedialPacketConn.redial_closeWithError_closed _ errClosed none
      (RedialPacketConn.redial_closedWith_of_open c none)) (List.replicate n ())
  simpa using h

theorem RoundRobinPacketConn.roundRobin_Close_again (c : RoundRobinPacketConn) (h : c.isOpen) :
    ∃ c1 e, c.Close = .ret c1 none ∧
      c1 = { c with closeOnce := true, err := some errClosed, closed := true } ∧
      e.wraps "close" errClosed ∧
      ∀ n, Outcome.seq (fun (_ : Unit) c => RoundRobinPacketConn.Close c) (List.replicate n ()) c1
        = .ret c1 (List.replicate n (some e)) := by
  refine ⟨_, .opError "close" c.remoteAddr.network (some c.sessionID) c.remoteAddr errClosed, RoundRobinPacketConn.roundRobin_closeWithError_open c none h, rfl, ⟨rfl, rfl⟩, fun n => ?_⟩
  have h := Outcome.seq_fixed (fun (_ : Unit) c => RoundRobinPacketConn.Close c) (fun _ => _) _
    (fun _ => RoundRobinPacketConn.roundRobin_closeWithError_closed _ errClosed none
      (RoundRobinPacketConn.roundRobin_closedWith_of_open c none)) (List.replicate n ())
  simpa using h

theorem QueuePacketConn.queue_fail_fast (c : QueuePacketConn) (err0 : Option Error)
    (h : c.isOpen) :
    ∃ c1, c.closeWithError err0 = .ret c1 none ∧
      c1 = { c with closeOnce := true, err := some (terminal err0), closed := true } ∧
      (∀ p, ∃ e, c1.ReadFrom p = .ret c1 ⟨0, none, some e, p⟩ ∧ e.wraps "read" (terminal err0)) ∧
      (∀ p addr, ∃ e, c1.WriteTo p addr = .ret c1 ⟨0, some e⟩ ∧
        e.wraps "write" (terminal err0)) ∧
      (∀ err1, ∃ e, c1.closeWithError err1 = .ret c1 (some e) ∧
        e.wraps "close" (terminal err0)) ∧
      (∀ calls, ∃ errs, Outcome.seq QueuePacketConn.call calls c1 = .ret c1 errs) := by
  have hc := QueuePacketConn.queue_closedWith_of_open c err0
  exact ⟨_, QueuePacketConn.queue_closeWithError_open c err0 h, rfl,
    fun p => ⟨_, QueuePacketConn.queue_ReadFrom_closed _ _ p hc, rfl, rfl⟩,
    fun p addr => ⟨_, QueuePacketConn.queue_WriteTo_closed _ _ p addr hc, rfl, rfl⟩,
    fun err1 => ⟨_, QueuePacketConn.queue_closeWithError_closed _ _ err1 hc, rfl, rfl⟩,
    fun calls => ⟨_, QueuePacketConn.queue_seq_call_closed _ _ hc calls⟩⟩

theorem RedialPacketConn.redial_fail_fast (c : RedialPacketConn) (err0 : Option Error)
    (h : c.isOpen) :
    ∃ c1, c.closeWithError err0 = .ret c1 none ∧
      c1 = { c with closeOnce := true, err := some (terminal err0), closed := true } ∧
      (∀ p, ∃ e, c1.ReadFrom p = .ret c1 ⟨0, none, some e, p⟩ ∧ e.wraps "read" (terminal err0)) ∧
      (∀ p addr, ∃ e, c1.WriteTo p addr = .ret c1 ⟨0, some e⟩ ∧
        e.wraps "write" (terminal err0)) ∧
      (∀ err1, ∃ e, c1.closeWithError err1 = .ret c1 (some e) ∧
        e.wraps "close" (terminal err0)) ∧
      (∀ calls, ∃ errs, Outcome.seq RedialPacketConn.call calls c1 = .ret c1 errs) := by
  have hc := RedialPacketConn.redial_closedWith_of_open c err0
  exact ⟨_, RedialPacketConn.redial_closeWithError_open c err0 h, rfl,
    fun p => ⟨_, RedialPacketConn.redial_ReadFrom_closed _ _ p hc, rfl, rfl⟩,
    fun p addr => ⟨_, RedialPacketConn.redial_WriteTo_closed _ _ p addr hc, rfl, rfl⟩,
    fun err1 => ⟨_, RedialPacketConn.redial_closeWithError_closed _ _ err1 hc, rfl, rfl⟩,
    fun calls => ⟨_, RedialPacketConn.redial_seq_call_closed _ _ hc calls⟩⟩

theorem RoundRobinPacketConn.roundRobin_fail_fast (c : RoundRobinPacketConn)
    (err0 : Option Error) (h : c.isOpen) :
    ∃ c1, c.closeWithError err0 = .ret c1 none ∧
      c1 = { c with closeOnce := true, err := some (terminal err0), closed := true } ∧
      (∀ p, ∃ e, c1.ReadFrom p = .ret c1 ⟨0, none, some e, p⟩ ∧ e.wraps "read" (terminal err0)) ∧
      (∀ p addr, ∃ e, c1.WriteTo p addr = .ret c1 ⟨0, some e⟩ ∧
        e.wraps "write" (terminal err0)) ∧
      (∀ err1, ∃ e, c1.closeWithError err1 = .ret c1 (some e) ∧
        e.wraps "close" (terminal err0)) ∧
      (∀ calls, ∃ errs, Outcome.seq RoundRobinPacketConn.call calls c1 = .ret c1 errs) := by
  have hc := RoundRobinPacketConn.roundRobin_closedWith_of_open c err0
  exact ⟨_, RoundRobinPacketConn.roundRobin_closeWithError_open c err0 h, rfl,
    fun p => ⟨_, RoundRobinPacketConn.roundRobin_ReadFrom_closed _ _ p hc, rfl, rfl⟩,
    fun p addr => ⟨_, RoundRobinPacketConn.roundRobin_WriteTo_closed _ _ p addr hc, rfl, rfl⟩,
    fun err1 => ⟨_, RoundRobinPacketConn.roundRobin_closeWithError_closed _ _ err1 hc, rfl, rfl⟩,
    fun calls => ⟨_, RoundRobinPacketConn.roundRobin_seq_call_closed _ _ hc calls⟩⟩

/-! ## Arithmetic of the counter -/

theorem succ_mod_cyclic (s n : Nat) (hs : s < 4294967296)
    (hw : s ≠ 4294967294 ∨ n ∣ 4294967296) :
    ((s + 1) % 4294967296 + 1) % 4294967296 % n = ((s + 1) % 4294967296 % n + 1) % n := by
  by_cases h1 : s + 2 < 4294967296
  · rw [Nat.mod_eq_of_lt (by omega : s + 1 < 4294967296),
      Nat.mod_eq_of_lt (by omega : s + 1 + 1 < 4294967296)]
    simp [Nat.add_mod]
  · by_cases h2 : s = 4294967295
    · subst h2
      simp
    · have h3 : s = 4294967294 := by omega
      subst h3
      rcases hw with h | h
      · exact absurd rfl h
      · norm_num
        exact (Nat.mod_eq_zero_of_dvd h).symm

/-! ## Lemmas on the queues -/

theorem take_succ_cons {α : Type} (x : α) (xs : List α) (n : Nat) :
    (x :: xs).take (n + 1) = x :: xs.take n := rfl

namespace QueuePacketConn

theorem queueAll_open (ps : List (Bytes × Addr)) (c : QueuePacketConn)
    (ho : c.closed = false) (hcap : c.recvQueue.cap = 32) (hlen : c.recvQueue.buf.length ≤ 32) :
    queueAll ps c = { c with recvQueue :=
      ⟨c.recvQueue.cap, c.recvQueue.buf ++ (ps.take (32 - c.recvQueue.buf.length)).map tag⟩ } := by
  induction ps generalizing c with
  | nil => simp [queueAll]
  | cons x xs ih =>
    have hstep : queueAll (x :: xs) c = queueAll xs (c.QueueIncoming x.1 x.2) := rfl
    rw [hstep]
    by_cases hlt : c.recvQueue.buf.length < 32
    · have h1 := QueueIncoming_room c x.1 x.2 ho (by omega)
      have e : 32 - c.recvQueue.buf.length = (32 - (c.recvQueue.buf.length + 1)) + 1 := by omega
      rw [h1, ih _ (by simpa using ho) (by simpa using hcap) (by simp; omega), e, take_succ_cons]
      simp [tag]
    · have hfull : c.recvQueue.buf.length = 32 := by omega
      have h1 := QueueIncoming_full c x.1 x.2 (by omega)
      rw [h1, ih c ho hcap hlen]
      simp [hfull]

end QueuePacketConn
namespace RedialPacketConn

theorem redial_WriteTo_room (c : RedialPacketConn) (p : Bytes) (addr : Addr) (ho : c.closed = false)
    (hlt : c.sendQueue.buf.length < c.sendQueue.cap) :
    c.WriteTo p addr =
      .ret { c with sendQueue := ⟨c.sendQueue.cap, c.sendQueue.buf ++ [p]⟩ } ⟨p.length, none⟩ := by
  simp [WriteTo, ho, copy_make, Chan.trySend_of_lt _ _ hlt]

theorem redial_WriteTo_full (c : RedialPacketConn) (p : Bytes) (addr : Addr) (ho : c.closed = false)
    (hge : c.sendQueue.cap ≤ c.sendQueue.buf.length) :
    c.WriteTo p addr = .ret c ⟨p.length, none⟩ := by
  simp [WriteTo, ho, copy_make, Chan.trySend_of_ge _ _ hge]

theorem redial_writeAll_open (ps : List (Bytes × Addr)) (c : RedialPacketConn)
    (ho : c.closed = false) (hcap : c.sendQueue.cap = 32) (hlen : c.sendQueue.buf.length ≤ 32) :
    Outcome.seq (fun x c => RedialPacketConn.WriteTo c x.1 x.2) ps c =
      .ret { c with sendQueue := ⟨c.sendQueue.cap,
          c.sendQueue.buf ++ (ps.take (32 - c.sendQueue.buf.length)).map (fun x => x.1)⟩ }
        (ps.map (fun x => ⟨x.1.length, none⟩)) := by
  induction ps generalizing c with
  | nil => simp [Outcome.seq]
  | cons x xs ih =>
    by_cases hlt : c.sendQueue.buf.length < 32
    · have h1 := redial_WriteTo_room c x.1 x.2 ho (by omega)
      have e : 32 - c.sendQueue.buf.length = (32 - (c.sendQueue.buf.length + 1)) + 1 := by omega
      simp only [Outcome.seq, h1]
      rw [ih _ (by simpa using ho) (by simpa using hcap) (by simp; omega), e, take_succ_cons]
      simp
    · have hfull : c.sendQueue.buf.length = 32 := by omega
      have h1 := redial_WriteTo_full c x.1 x.2 ho (by omega)
      simp only [Outcome.seq, h1]
      rw [ih c ho hcap hlen]
      simp [hfull]

end RedialPacketConn

namespace RoundRobinPacketConn

theorem roundRobin_WriteTo_room (c : RoundRobinPacketConn) (p : Bytes) (addr : Addr) (ho : c.closed = false)
    (hlt : c.sendQueue.buf.length < c.sendQueue.cap) :
    c.WriteTo p addr =
      .ret { c with sendQueue := ⟨c.sendQueue.cap, c.sendQueue.buf ++ [p]⟩ } ⟨p.length, none⟩ := by
  simp [WriteTo, ho, copy_make, Chan.trySend_of_lt _ _ hlt]

theorem roundRobin_WriteTo_full (c : RoundRobinPacketConn) (p : Bytes) (addr : Addr) (ho : c.closed = false)
    (hge : c.sendQueue.cap ≤ c.sendQueue.buf.length) :
    c.WriteTo p addr = .ret c ⟨p.length, none⟩ := by
  simp [WriteTo, ho, copy_make, Chan.trySend_of_ge _ _ hge]

theorem roundRobin_writeAll_open (ps : List (Bytes × Addr)) (c : RoundRobinPacketConn)
    (ho : c.closed = false) (hcap : c.sendQueue.cap = 32) (hlen : c.sendQueue.buf.length ≤ 32) :
    Outcome.seq (fun x c => RoundRobinPacketConn.WriteTo c x.1 x.2) ps c =
      .ret { c with sendQueue := ⟨c.sendQueue.cap,
          c.sendQueue.buf ++ (ps.take (32 - c.sendQueue.buf.length)).map (fun x => x.1)⟩ }
        (ps.map (fun x => ⟨x.1.length, none⟩)) := by
  induction ps generalizing c with
  | nil => simp [Outcome.seq]
  | cons x xs ih =>
    by_cases hlt : c.sendQueue.buf.length < 32
    · have h1 := roundRobin_WriteTo_room c x.1 x.2 ho (by omega)
      have e : 32 - c.sendQueue.buf.length = (32 - (c.sendQueue.buf.length + 1)) + 1 := by omega
      simp only [Outcome.seq, h1]
      rw [ih _ (by simpa using ho) (by simpa using hcap) (by simp; omega), e, take_succ_cons]
      simp
    · have hfull : c.sendQueue.buf.length = 32 := by omega
      have h1 := roundRobin_WriteTo_full c x.1 x.2 ho (by omega)
      simp only [Outcome.seq, h1]
      rw [ih c ho hcap hlen]
      simp [hfull]

end RoundRobinPacketConn

namespace QueuePacketConn

theorem ReadFrom_head (c : QueuePacketConn) (x : taggedPacket) (rest : List taggedPacket)
    (b : Bytes) (ho : c.closed = false) (hq : c.recvQueue.buf = x :: rest)
    (hb : x.P.length ≤ b.length) :
    c.ReadFrom b = .ret { c with recvQueue := ⟨c.recvQueue.cap, rest⟩ }
      ⟨x.P.length, some x.Addr, none, x.P ++ b.drop x.P.length⟩ := by
  simp [ReadFrom, ho, Chan.tryRecv, hq, copy, Nat.min_eq_right hb]

theorem readAll_open (ps : List (Bytes × Addr)) (bufs : List Bytes) (c : QueuePacketConn)
    (rest : List taggedPacket)
    (ho : c.closed = false) (hq : c.recvQueue.buf = ps.map tag ++ rest)
    (hb : List.Forall₂ (fun x b => x.1.length ≤ b.length) ps bufs) :
    Outcome.seq (fun b c => QueuePacketConn.ReadFrom c b) bufs c =
      .ret { c with recvQueue := ⟨c.recvQueue.cap, rest⟩ }
        (List.zipWith (fun x b => ⟨x.1.length, some x.2, none, x.1 ++ b.drop x.1.length⟩) ps bufs) := by
  induction hb generalizing c with
  | nil =>
    simp at hq
    cases c with
    | mk a b q d e f =>
      cases q
      simp at hq
      simp [Outcome.seq, hq]
  | @cons x b xs bs hxb _ ih =>
    have h1 := ReadFrom_head c (tag x) (xs.map tag ++ rest) b ho (by simpa using hq) hxb
    simp only [Outcome.seq, h1]
    rw [ih _ (by simpa using ho) rfl]
    simp [tag]

end QueuePacketConn

/-! ## Lemmas on the loops -/

theorem Conn.Write_fail (conn : Conn) (b : Bytes) (e : Error) (h : (conn.Write b).2 = some e) :
    (conn.Write b).1 = conn := by
  unfold Conn.Write at h ⊢
  by_cases hc : conn.closed = true
  · simp [hc]
  · cases hb : conn.broken with
    | none => simp [hc, hb] at h
    | some e1 => simp [hc, hb]

theorem Conn.Write_closed (conn : Conn) (b : Bytes) :
    conn.Close.Write b = (conn.Close, some errUseOfClosed) := by
  simp [Conn.Write, Conn.Close]

theorem Conn.Close_Close (conn : Conn) : conn.Close.Close = conn.Close := rfl

namespace RedialPacketConn

theorem dialAndExchange_write_fail (c : RedialPacketConn) (e : Error) (sched : List Ev)
    (hw : (c.ptconn.Write c.sessionID.bytes).2 = some e) :
    c.dialAndExchange sched = .ret { c with ptconn := c.ptconn.Close } none := by
  simp [dialAndExchange, hw, Conn.Write_fail _ _ _ hw]

theorem dialAndExchange_closed_conn (c : RedialPacketConn) (sched : List Ev)
    (hc : c.ptconn.closed = true) : c.dialAndExchange sched = .ret c none := by
  have hw : (c.ptconn.Write c.sessionID.bytes).2 = some errUseOfClosed := by
    simp [Conn.Write, hc]
  rw [dialAndExchange_write_fail c errUseOfClosed sched hw]
  have : c.ptconn.Close = c.ptconn := by
    cases hp : c.ptconn with
    | mk a b cl s i =>
      rw [hp] at hc
      simp only at hc
      simp [Conn.Close, hc]
  rw [this]

theorem loop_spins (scheds : List (List Ev)) (c : RedialPacketConn) (ho : c.closed = false)
    (hc : c.ptconn.closed = true) : loop scheds c = .pending c := by
  induction scheds with
  | nil => simp [loop, ho]
  | cons sched rest ih =>
    simp only [loop, ho, dialAndExchange_closed_conn c sched hc]
    simpa using ih

end RedialPacketConn

namespace RoundRobinPacketConn

theorem writeSessionIDs_fail (sid : SessionID) (l : List Conn) (i : Nat) (conn : Conn) (e : Error)
    (hok : ∀ j k, j < i → l[j]? = some k → (k.Write sid.bytes).2 = none)
    (hi : l[i]? = some conn) (hfail : (conn.Write sid.bytes).2 = some e) :
    (writeSessionIDs sid l).2 = some e := by
  induction l generalizing i with
  | nil => simp at hi
  | cons k rest ih =>
    cases i with
    | zero =>
      simp at hi
      subst hi
      simp [writeSessionIDs, hfail]
    | succ n =>
      have h0 : (k.Write sid.bytes).2 = none := hok 0 k (Nat.succ_pos n) (by simp)
      simp only [writeSessionIDs, h0]
      exact ih n (fun j k' hj hk => hok (j + 1) k' (Nat.succ_lt_succ hj) (by simpa using hk))
        (by simpa using hi)

theorem exchange_fail (c : RoundRobinPacketConn) (e : Error) (sched : List Ev)
    (h : (writeSessionIDs c.sessionID c.connList).2 = some e) :
    c.exchange sched =
      .ret { c with connList := (writeSessionIDs c.sessionID c.connList).1 } (some e) := by
  simp [exchange, h]

end RoundRobinPacketConn

/-- What the code of `RedialPacketConn` does when the write of the session
identifier fails on an open adapter: `dialAndExchange` closes the connection
and returns nil, and `loop`, which calls it again on the same connection, has
not returned after any number of turns; `closeWithError` is not reached. -/
theorem redial_pending_after_write_failure (c : RedialPacketConn) (e : Error) (sched : List Ev)
    (scheds : List (List Ev)) (ho : c.closed = false)
    (hw : (c.ptconn.Write c.sessionID.bytes).2 = some e) :
    c.dialAndExchange sched = .ret { c with ptconn := c.ptconn.Close } none ∧
    RedialPacketConn.loop (sched :: scheds) c = .pending { c with ptconn := c.ptconn.Close } ∧
    RedialPacketConn.NewRedialPacketConn_func1 (sched :: scheds) c
      = .pending { c with ptconn := c.ptconn.Close } ∧
    ({ c with ptconn := c.ptconn.Close } : RedialPacketConn).closed = false ∧
    ({ c with ptconn := c.ptconn.Close } : RedialPacketConn).err = c.err := by
  have h1 := RedialPacketConn.dialAndExchange_write_fail c e sched hw
  have h2 : RedialPacketConn.loop (sched :: scheds) c
      = .pending { c with ptconn := c.ptconn.Close } := by
    have hl : RedialPacketConn.loop (sched :: scheds) c
        = RedialPacketConn.loop scheds { c with ptconn := c.ptconn.Close } := by
      simp only [RedialPacketConn.loop]
      rw [if_neg (by simp [ho]), h1]
    rw [hl]
    exact RedialPacketConn.loop_spins scheds { c with ptconn := c.ptconn.Close } ho rfl
  refine ⟨h1, h2, ?_, ho, rfl⟩
  simp [RedialPacketConn.NewRedialPacketConn_func1, h2]

/-! ## Lemmas on reading -/

theorem QueuePacketConn.queue_ReadFrom_packet (c : QueuePacketConn) (x : taggedPacket) (rest : List taggedPacket) (p : Bytes)
    (ho : c.closed = false) (hq : c.recvQueue.buf = x :: rest) :
    c.ReadFrom p = .ret { c with recvQueue := ⟨c.recvQueue.cap, rest⟩ }
      ⟨min p.length x.P.length, some x.Addr, none,
        x.P.take (min p.length x.P.length) ++ p.drop (min p.length x.P.length)⟩ := by
  simp [QueuePacketConn.ReadFrom, ho, Chan.tryRecv, hq, copy]

theorem QueuePacketConn.queue_ReadFrom_empty (c : QueuePacketConn) (p : Bytes)
    (ho : c.closed = false) (hq : c.recvQueue.buf = []) :
    c.ReadFrom p = .pending c := by
  simp [QueuePacketConn.ReadFrom, ho, Chan.tryRecv, hq]

theorem RedialPacketConn.redial_ReadFrom_packet (c : RedialPacketConn) (x : Bytes) (rest : List Bytes) (p : Bytes)
    (ho : c.closed = false) (hq : c.recvQueue.buf = x :: rest) :
    c.ReadFrom p = .ret { c with recvQueue := ⟨c.recvQueue.cap, rest⟩ }
      ⟨min p.length x.length, some c.remoteAddr, none,
        x.take (min p.length x.length) ++ p.drop (min p.length x.length)⟩ := by
  simp [RedialPacketConn.ReadFrom, ho, Chan.tryRecv, hq, copy]

theorem RedialPacketConn.redial_ReadFrom_empty (c : RedialPacketConn) (p : Bytes)
    (ho : c.closed = false) (hq : c.recvQueue.buf = []) :
    c.ReadFrom p = .pending c := by
  simp [RedialPacketConn.ReadFrom, ho, Chan.tryRecv, hq]

theorem RoundRobinPacketConn.roundRobin_ReadFrom_packet (c : RoundRobinPacketConn) (x : Bytes) (rest : List Bytes) (p : Bytes)
    (ho : c.closed = false) (hq : c.recvQueue.buf = x :: rest) :
    c.ReadFrom p = .ret { c with recvQueue := ⟨c.recvQueue.cap, rest⟩ }
      ⟨min p.length x.length, some c.remoteAddr, none,
        x.take (min p.length x.length) ++ p.drop (min p.length x.length)⟩ := by
  simp [RoundRobinPacketConn.ReadFrom, ho, Chan.tryRecv, hq, copy]

theorem RoundRobinPacketConn.roundRobin_ReadFrom_empty (c : RoundRobinPacketConn) (p : Bytes)
    (ho : c.closed = false) (hq : c.recvQueue.buf = []) :
    c.ReadFrom p = .pending c := by
  simp [RoundRobinPacketConn.ReadFrom, ho, Chan.tryRecv, hq]

theorem copy_length (dst src : Bytes) : (copy dst src).1.length = dst.length := by
  simp only [copy, List.length_append, List.length_take, List.length_drop]
  omega

theorem take_append_drop_min (p q : Bytes) :
    (q.take (min p.length q.length) ++ p.drop (min p.length q.length)).take
      (min p.length q.length) = q.take (min p.length q.length) := by
  rw [List.take_append_of_le_length (by simp)]
  simp

theorem drop_append_drop_min (p q : Bytes) :
    (q.take (min p.length q.length) ++ p.drop (min p.length q.length)).drop
      (min p.length q.length) = p.drop (min p.length q.length) := by
  rw [List.drop_append_of_le_length (by simp)]
  simp

/-! ## Lemmas on the configuration -/

theorem GetClientTOMLConfig_accept (DecodeFile : String → SplitPTConfig × Option Error)
    (tomlFilename : String) (hdec : (DecodeFile tomlFilename).2 = none)
    (halg : (DecodeFile tomlFilename).1.SplittingAlg = "round-robin" ∨
      (DecodeFile tomlFilename).1.SplittingAlg = "random") :
    (GetClientTOMLConfig DecodeFile tomlFilename).config = some (DecodeFile tomlFilename).1 ∧
    (GetClientTOMLConfig DecodeFile tomlFilename).err = none := by
  rcases halg with h | h
  · simp [GetClientTOMLConfig, hdec, h, logConnections]
  · simp [GetClientTOMLConfig, hdec, h, logConnections]

theorem GetClientTOMLConfig_reject (DecodeFile : String → SplitPTConfig × Option Error)
    (tomlFilename : String) (hdec : (DecodeFile tomlFilename).2 = none)
    (h1 : (DecodeFile tomlFilename).1.SplittingAlg ≠ "round-robin")
    (h2 : (DecodeFile tomlFilename).1.SplittingAlg ≠ "random") :
    (GetClientTOMLConfig DecodeFile tomlFilename).config = none ∧
    (GetClientTOMLConfig DecodeFile tomlFilename).err
      = some (.other "Invalid splitting algorithm in TOML") := by
  simp [GetClientTOMLConfig, hdec, h1, h2]

/-! ## C1: round-robin fan-out -/

/-- C1, counterexample. On the fresh RoundRobinPacketConn over three healthy
connections, after WriteTo of packets 0..8 and nine turns of the outbound
goroutine, connection 0 has been sent the session identifier and then packets
2, 5, 8, not packets 0, 3, 6; connection 1 got 0, 3, 6 and connection 2 got
1, 4, 7. -/
theorem fan_out_counterexample :
    (rr0.fanOut nine ⟨"tcp", "192.0.2.1:443"⟩).state.map (fun c => c.sentTo 0)
      = some [.raw sid0.bytes, .packet [2], .packet [5], .packet [8]] ∧
    (rr0.fanOut nine ⟨"tcp", "192.0.2.1:443"⟩).state.map (fun c => c.sentTo 0)
      ≠ some [.raw sid0.bytes, .packet [0], .packet [3], .packet [6]] ∧
    (rr0.fanOut nine ⟨"tcp", "192.0.2.1:443"⟩).state.map (fun c => c.sentTo 1)
      = some [.raw sid0.bytes, .packet [0], .packet [3], .packet [6]] ∧
    (rr0.fanOut nine ⟨"tcp", "192.0.2.1:443"⟩).state.map (fun c => c.sentTo 2)
      = some [.raw sid0.bytes, .packet [1], .packet [4], .packet [7]] := by
  decide

/-- C1, amended. Round-robin fan-out: on a freshly constructed
RoundRobinPacketConn over three healthy connections, after nine sequential
WriteTo calls (packets p0..p8, none dropped) are drained by the outbound
goroutine of an exchange, packet j has gone to connection (j + 1) mod 3:
after the session identifier, connection 0 received exactly p2, p5, p8,
connection 1 exactly p0, p3, p6 and connection 2 exactly p1, p4, p7, each in
that order; the send queue is empty and the exchange is still running. -/
theorem fan_out (sid : SessionID) (remote addr : Addr) (k0 k1 k2 : Conn)
    (p0 p1 p2 p3 p4 p5 p6 p7 p8 : Bytes)
    (h0 : k0.healthy) (h1 : k1.healthy) (h2 : k2.healthy) :
    ∃ cf, (RoundRobinPacketConn.NewRoundRobinPacketConn sid [k0, k1, k2] remote).fanOut
        [p0, p1, p2, p3, p4, p5, p6, p7, p8] addr = .pending cf ∧
      cf.sentTo 0 = k0.sent ++ [.raw sid.bytes, .packet p2, .packet p5, .packet p8] ∧
      cf.sentTo 1 = k1.sent ++ [.raw sid.bytes, .packet p0, .packet p3, .packet p6] ∧
      cf.sentTo 2 = k2.sent ++ [.raw sid.bytes, .packet p1, .packet p4, .packet p7] ∧
      cf.sendQueue.buf = [] := by
  obtain ⟨a0, b0⟩ := h0
  obtain ⟨a1, b1⟩ := h1
  obtain ⟨a2, b2⟩ := h2
  simp [RoundRobinPacketConn.fanOut, RoundRobinPacketConn.NewRoundRobinPacketConn, Outcome.seq,
    RoundRobinPacketConn.WriteTo, copy_make, Chan.trySend, Chan.make,
    RoundRobinPacketConn.exchange, RoundRobinPacketConn.writeSessionIDs, Conn.Write,
    a0, a1, a2, b0, b1, b2, RoundRobinPacketConn.spawn, List.replicate,
    RoundRobinPacketConn.wait, RoundRobinPacketConn.step, RoundRobinPacketConn.outbound,
    Chan.tryRecv, RoundRobinPacketConn.getConn, WritePacket, NewWriter, Writer.Flush,
    RoundRobinPacketConn.sentTo]

/-- Witness of C1 (amended) on three fresh connections. -/
theorem fan_out_witness :
    freshConn.healthy ∧
    ∃ cf, (RoundRobinPacketConn.NewRoundRobinPacketConn sid0 [freshConn, freshConn, freshConn]
        ⟨"tcp", "192.0.2.1:443"⟩).fanOut [[0], [1], [2], [3], [4], [5], [6], [7], [8]]
        ⟨"tcp", "192.0.2.1:443"⟩ = .pending cf ∧
      cf.sentTo 0 = freshConn.sent ++ [.raw sid0.bytes, .packet [2], .packet [5], .packet [8]] ∧
      cf.sentTo 1 = freshConn.sent ++ [.raw sid0.bytes, .packet [0], .packet [3], .packet [6]] ∧
      cf.sentTo 2 = freshConn.sent ++ [.raw sid0.bytes, .packet [1], .packet [4], .packet [7]] ∧
      cf.sendQueue.buf = [] :=
  ⟨by decide,
    fan_out sid0 ⟨"tcp", "192.0.2.1:443"⟩ ⟨"tcp", "192.0.2.1:443"⟩ freshConn freshConn freshConn
      [0] [1] [2] [3] [4] [5] [6] [7] [8] (by decide) (by decide) (by decide)⟩

/-! ## C2: idempotent close -/

/-- C2. Idempotent close: on each of the three adapters in the open state, the
first Close returns nil and leaves the adapter with the latch tripped and the
stored error errClosed (nothing else changed); every later Close, however many
there are, returns a non-nil net.OpError of operation "close" that wraps
errClosed, and leaves the adapter exactly as the first Close left it. -/
theorem Close_idempotent (q : QueuePacketConn) (r : RedialPacketConn) (rr : RoundRobinPacketConn)
    (hq : q.isOpen) (hr : r.isOpen) (hrr : rr.isOpen) :
    (∃ q1 e, q.Close = .ret q1 none ∧
      q1 = { q with closeOnce := true, err := some errClosed, closed := true } ∧
      e.wraps "close" errClosed ∧
      ∀ n, Outcome.seq (fun (_ : Unit) c => QueuePacketConn.Close c) (List.replicate n ()) q1
        = .ret q1 (List.replicate n (some e))) ∧
    (∃ r1 e, r.Close = .ret r1 none ∧
      r1 = { r with closeOnce := true, err := some errClosed, closed := true } ∧
      e.wraps "close" errClosed ∧
      ∀ n, Outcome.seq (fun (_ : Unit) c => RedialPacketConn.Close c) (List.replicate n ()) r1
        = .ret r1 (List.replicate n (some e))) ∧
    (∃ rr1 e, rr.Close = .ret rr1 none ∧
      rr1 = { rr with closeOnce := true, err := some errClosed, closed := true } ∧
      e.wraps "close" errClosed ∧
      ∀ n, Outcome.seq (fun (_ : Unit) c => RoundRobinPacketConn.Close c) (List.replicate n ()) rr1
        = .ret rr1 (List.replicate n (some e))) :=
  ⟨QueuePacketConn.queue_Close_again q hq, RedialPacketConn.redial_Close_again r hr,
    RoundRobinPacketConn.roundRobin_Close_again rr hrr⟩

/-- Witness of C2 on the three freshly constructed adapters. -/
theorem Close_idempotent_witness :
    q0.isOpen ∧ r0.isOpen ∧ rr0.isOpen ∧
    (∃ q1 e, q0.Close = .ret q1 none ∧
      q1 = { q0 with closeOnce := true, err := some errClosed, closed := true } ∧
      e.wraps "close" errClosed ∧
      ∀ n, Outcome.seq (fun (_ : Unit) c => QueuePacketConn.Close c) (List.replicate n ()) q1
        = .ret q1 (List.replicate n (some e))) :=
  ⟨by decide, by decide, by decide,
    (Close_idempotent q0 r0 rr0 (by decide) (by decide) (by decide)).1⟩

/-! ## C3: fail-fast after close -/

/-- C3. Fail-fast after close: on each of the three adapters in the open state,
closeWithError(err0) trips the latch and stores the terminal error e, which is
err0, or errClosed when err0 is nil, changing no queue. From then on every
ReadFrom returns (0, nil, a "read" net.OpError wrapping e) without touching the
caller's buffer or the inbound queue, whatever that queue holds; every WriteTo
returns (0, a "write" net.OpError wrapping e) and adds nothing to any outbound
queue; every further closeWithError, with whatever error, returns a "close"
net.OpError wrapping e; and after any sequence of such calls the adapter,
stored error included, is exactly as the first close left it. -/
theorem fail_fast_after_close (q : QueuePacketConn) (r : RedialPacketConn)
    (rr : RoundRobinPacketConn) (err0 : Option Error)
    (hq : q.isOpen) (hr : r.isOpen) (hrr : rr.isOpen) :
    (∃ q1, q.closeWithError err0 = .ret q1 none ∧
      q1 = { q with closeOnce := true, err := some (terminal err0), closed := true } ∧
      (∀ p, ∃ e, q1.ReadFrom p = .ret q1 ⟨0, none, some e, p⟩ ∧ e.wraps "read" (terminal err0)) ∧
      (∀ p addr, ∃ e, q1.WriteTo p addr = .ret q1 ⟨0, some e⟩ ∧
        e.wraps "write" (terminal err0)) ∧
      (∀ err1, ∃ e, q1.closeWithError err1 = .ret q1 (some e) ∧
        e.wraps "close" (terminal err0)) ∧
      (∀ calls, ∃ errs, Outcome.seq QueuePacketConn.call calls q1 = .ret q1 errs)) ∧
    (∃ r1, r.closeWithError err0 = .ret r1 none ∧
      r1 = { r with closeOnce := true, err := some (terminal err0), closed := true } ∧
      (∀ p, ∃ e, r1.ReadFrom p = .ret r1 ⟨0, none, some e, p⟩ ∧ e.wraps "read" (terminal err0)) ∧
      (∀ p addr, ∃ e, r1.WriteTo p addr = .ret r1 ⟨0, some e⟩ ∧
        e.wraps "write" (terminal err0)) ∧
      (∀ err1, ∃ e, r1.closeWithError err1 = .ret r1 (some e) ∧
        e.wraps "close" (terminal err0)) ∧
      (∀ calls, ∃ errs, Outcome.seq RedialPacketConn.call calls r1 = .ret r1 errs)) ∧
    (∃ rr1, rr.closeWithError err0 = .ret rr1 none ∧
      rr1 = { rr with closeOnce := true, err := some (terminal err0), closed := true } ∧
      (∀ p, ∃ e, rr1.ReadFrom p = .ret rr1 ⟨0, none, some e, p⟩ ∧ e.wraps "read" (terminal err0)) ∧
      (∀ p addr, ∃ e, rr1.WriteTo p addr = .ret rr1 ⟨0, some e⟩ ∧
        e.wraps "write" (terminal err0)) ∧
      (∀ err1, ∃ e, rr1.closeWithError err1 = .ret rr1 (some e) ∧
        e.wraps "close" (terminal err0)) ∧
      (∀ calls, ∃ errs, Outcome.seq RoundRobinPacketConn.call calls rr1 = .ret rr1 errs)) :=
  ⟨QueuePacketConn.queue_fail_fast q err0 hq, RedialPacketConn.redial_fail_fast r err0 hr,
    RoundRobinPacketConn.roundRobin_fail_fast rr err0 hrr⟩

/-- Witness of C3: a fresh QueuePacketConn that holds a queued packet, a fresh
RedialPacketConn and a fresh RoundRobinPacketConn, closed with nil. -/
theorem fail_fast_after_close_witness :
    (q0.QueueIncoming [1] ⟨"tcp", "a"⟩).isOpen ∧ r0.isOpen ∧ rr0.isOpen ∧
    ∃ q1, (q0.QueueIncoming [1] ⟨"tcp", "a"⟩).closeWithError none = .ret q1 none ∧
      q1.recvQueue.buf = [⟨[1], ⟨"tcp", "a"⟩⟩] ∧
      ∀ p, ∃ e, q1.ReadFrom p = .ret q1 ⟨0, none, some e, p⟩ ∧ e.wraps "read" errClosed :=
  ⟨by decide, by decide, by decide,
    match (fail_fast_after_close (q0.QueueIncoming [1] ⟨"tcp", "a"⟩) r0 rr0 none
      (by decide) (by decide) (by decide)).1 with
    | ⟨q1, h1, h2, h3, _⟩ => ⟨q1, h1, by rw [h2]; rfl, h3⟩⟩

/-! ## C4: drop on overflow -/

/-- C4. Drop-on-overflow: on an open adapter whose queue is as its constructor
made it (capacity 32, at most 32 packets queued), after any sequence of
enqueues with no dequeue in between (QueueIncoming on the inbound queue of a
QueuePacketConn, WriteTo on the outbound queue of a RedialPacketConn or
RoundRobinPacketConn) the queue holds at most 32 packets; starting from an
empty queue it holds exactly the first 32 packets of the sequence, in order
(so of 40 packets the last 8 are discarded); and every WriteTo of the sequence
returns (len(p), nil). -/
theorem drop_on_overflow (q : QueuePacketConn) (r : RedialPacketConn)
    (rr : RoundRobinPacketConn) (ps : List (Bytes × Addr))
    (hq : q.closed = false) (hr : r.closed = false) (hrr : rr.closed = false)
    (hqi : q.recvQueue.Inv) (hri : r.sendQueue.Inv) (hrri : rr.sendQueue.Inv) :
    ((q.queueAll ps).recvQueue.buf.length ≤ 32 ∧
      (q.recvQueue.buf = [] → (q.queueAll ps).recvQueue.buf = (ps.take 32).map tag)) ∧
    (∃ r1, Outcome.seq (fun x c => RedialPacketConn.WriteTo c x.1 x.2) ps r
        = .ret r1 (ps.map (fun x => ⟨x.1.length, none⟩)) ∧
      r1.sendQueue.buf.length ≤ 32 ∧
      (r.sendQueue.buf = [] → r1.sendQueue.buf = (ps.take 32).map (fun x => x.1))) ∧
    (∃ rr1, Outcome.seq (fun x c => RoundRobinPacketConn.WriteTo c x.1 x.2) ps rr
        = .ret rr1 (ps.map (fun x => ⟨x.1.length, none⟩)) ∧
      rr1.sendQueue.buf.length ≤ 32 ∧
      (rr.sendQueue.buf = [] → rr1.sendQueue.buf = (ps.take 32).map (fun x => x.1))) := by
  obtain ⟨hq1, hq2⟩ := hqi
  obtain ⟨hr1, hr2⟩ := hri
  obtain ⟨hrr1, hrr2⟩ := hrri
  refine ⟨?_, ⟨_, RedialPacketConn.redial_writeAll_open ps r hr hr1 hr2, ?_, ?_⟩,
    ⟨_, RoundRobinPacketConn.roundRobin_writeAll_open ps rr hrr hrr1 hrr2, ?_, ?_⟩⟩
  · rw [QueuePacketConn.queueAll_open ps q hq hq1 hq2]
    constructor
    · simp; omega
    · intro h; simp [h]
  · simp; omega
  · intro h; simp [h]
  · simp; omega
  · intro h; simp [h]

/-- Witness of C4: forty packets into the fresh adapters. -/
theorem drop_on_overflow_witness :
    (q0.closed = false ∧ r0.closed = false ∧ rr0.closed = false) ∧
    (q0.recvQueue.Inv ∧ r0.sendQueue.Inv ∧ rr0.sendQueue.Inv) ∧
    forty.length = 40 ∧
    ((q0.queueAll forty).recvQueue.buf.length ≤ 32 ∧
      (q0.recvQueue.buf = [] → (q0.queueAll forty).recvQueue.buf = (forty.take 32).map tag)) :=
  ⟨by decide, by decide, by decide,
    (drop_on_overflow q0 r0 rr0 forty (by decide) (by decide) (by decide)
      (by decide) (by decide) (by decide)).1⟩

/-! ## C5: FIFO delivery under capacity -/

/-- C5. FIFO delivery under capacity: on an open QueuePacketConn with an empty
inbound queue (capacity 32), after QueueIncoming of at most 32 packets with
their source addresses, as many ReadFrom calls with buffers at least as long as
the packets return the packets in the order in which they were enqueued: the
k-th call returns the length of the k-th packet, its source address and a nil
error, and the buffer starts with the bytes of that packet; afterwards the
queue is empty again. For three packets A, B, C this gives (A,a), (B,b),
(C,c) in that order. -/
theorem fifo_under_capacity (q : QueuePacketConn) (ps : List (Bytes × Addr)) (bufs : List Bytes)
    (hq : q.closed = false) (hqi : q.recvQueue.Inv) (hempty : q.recvQueue.buf = [])
    (hlen : ps.length ≤ 32)
    (hbufs : List.Forall₂ (fun x b => x.1.length ≤ b.length) ps bufs) :
    Outcome.seq (fun b c => QueuePacketConn.ReadFrom c b) bufs (q.queueAll ps) =
      .ret q (List.zipWith
        (fun x b => ⟨x.1.length, some x.2, none, x.1 ++ b.drop x.1.length⟩) ps bufs) := by
  obtain ⟨hq1, hq2⟩ := hqi
  have h1 := QueuePacketConn.queueAll_open ps q hq hq1 hq2
  have h2 := QueuePacketConn.readAll_open ps bufs (q.queueAll ps) [] (by rw [h1]; exact hq) (by
    rw [h1]; simp [hempty, List.take_of_length_le hlen]) hbufs
  rw [h2, h1]
  cases q with
  | mk a b qq d e f =>
    cases qq
    simp at hempty
    simp [hempty]

/-- Witness of C5: three packets A, B, C read back in order. -/
theorem fifo_under_capacity_witness :
    q0.closed = false ∧ q0.recvQueue.Inv ∧ q0.recvQueue.buf = [] ∧
    Outcome.seq (fun b c => QueuePacketConn.ReadFrom c b) [make 4, make 2, make 3]
      (q0.queueAll [([1, 2], ⟨"tcp", "a"⟩), ([3], ⟨"tcp", "b"⟩), ([4, 5, 6], ⟨"tcp", "c"⟩)]) =
      .ret q0 [⟨2, some ⟨"tcp", "a"⟩, none, [1, 2, 0, 0]⟩, ⟨1, some ⟨"tcp", "b"⟩, none, [3, 0]⟩,
        ⟨3, some ⟨"tcp", "c"⟩, none, [4, 5, 6]⟩] :=
  ⟨by decide, by decide, by decide,
    fifo_under_capacity q0 [([1, 2], ⟨"tcp", "a"⟩), ([3], ⟨"tcp", "b"⟩), ([4, 5, 6], ⟨"tcp", "c"⟩)]
      [make 4, make 2, make 3] (by decide) (by decide) (by decide) (by decide)
      (by simp [make])⟩

/-! ## C6: failure to write the session identifier, RedialPacketConn -/

/-- C6, the code at the failing input. On the fresh RedialPacketConn over a
connection whose stream is broken, conn.Write(sessionID) fails and
dialAndExchange returns nil instead of the error; its deferred conn.Close() has
closed the one connection the adapter has, so the write of the next turn fails
as well and dialAndExchange returns nil again. After fifty turns the loop has
not returned and the goroutine of the adapter has not called closeWithError:
the adapter is still open, no terminal error is stored, and ReadFrom blocks
instead of returning the closed-connection error. The claim has the loop
terminate and the adapter close, which is what the sibling
RoundRobinPacketConn does over the same broken connection: it is closed with
the error of the write. -/
theorem session_write_failure_spins :
    (rb.ptconn.Write rb.sessionID.bytes).2 = some (.other "broken pipe") ∧
    rb.dialAndExchange [] = .ret rbSpun none ∧
    rbSpun.ptconn.closed = true ∧
    (rbSpun.ptconn.Write rbSpun.sessionID.bytes).2 = some errUseOfClosed ∧
    rbSpun.dialAndExchange [] = .ret rbSpun none ∧
    RedialPacketConn.loop (List.replicate 50 []) rb = .pending rbSpun ∧
    RedialPacketConn.NewRedialPacketConn_func1 (List.replicate 50 []) rb = .pending rbSpun ∧
    rbSpun.closed = false ∧ rbSpun.err = none ∧
    rbSpun.ReadFrom (make 16) = .pending rbSpun ∧
    (RoundRobinPacketConn.NewRoundRobinPacketConn_func1 [[]] rrb1).state.map
      (fun c => (c.closed, c.err)) = some (true, some (.other "broken pipe")) := by
  decide

/-! ## C7: failure to write the session identifier, RoundRobinPacketConn -/

/-- C7. In RoundRobinPacketConn, on an open adapter, if in the first loop of
exchange the writes of the session identifier to the connections before
position i succeed and the write to connection i fails with error e, then
exchange returns e under every schedule (no goroutine takes a step; only the
connections written to have changed), loop returns e, the goroutine of the
adapter closes it with e as the stored terminal error, and from then on every
ReadFrom and every WriteTo returns a net.OpError wrapping exactly e, the
adapter staying as it is under any sequence of calls. -/
theorem sessionID_write_failure_fatal (c : RoundRobinPacketConn) (e : Error) (i : Nat)
    (conn : Conn) (sched : List Ev) (scheds : List (List Ev))
    (ho : c.isOpen)
    (hok : ∀ j k, j < i → c.connList[j]? = some k → (k.Write c.sessionID.bytes).2 = none)
    (hi : c.connList[i]? = some conn) (hfail : (conn.Write c.sessionID.bytes).2 = some e) :
    ∃ c1 c2,
      c1 = { c with
        connList := (RoundRobinPacketConn.writeSessionIDs c.sessionID c.connList).1 } ∧
      (∀ sched1, c.exchange sched1 = .ret c1 (some e)) ∧
      RoundRobinPacketConn.loop (sched :: scheds) c = .ret c1 (some e) ∧
      RoundRobinPacketConn.NewRoundRobinPacketConn_func1 (sched :: scheds) c = .ret c2 none ∧
      c2 = { c1 with closeOnce := true, err := some e, closed := true } ∧
      (∀ p, ∃ err, c2.ReadFrom p = .ret c2 ⟨0, none, some err, p⟩ ∧ err.wraps "read" e) ∧
      (∀ p addr, ∃ err, c2.WriteTo p addr = .ret c2 ⟨0, some err⟩ ∧ err.wraps "write" e) ∧
      (∀ calls, ∃ errs, Outcome.seq RoundRobinPacketConn.call calls c2 = .ret c2 errs) := by
  have hw := RoundRobinPacketConn.writeSessionIDs_fail c.sessionID c.connList i conn e hok hi hfail
  have hx := fun sched1 => RoundRobinPacketConn.exchange_fail c e sched1 hw
  obtain ⟨ho1, ho2⟩ := ho
  have hl : RoundRobinPacketConn.loop (sched :: scheds) c
      = .ret { c with
          connList := (RoundRobinPacketConn.writeSessionIDs c.sessionID c.connList).1 }
        (some e) := by
    simp only [RoundRobinPacketConn.loop]
    rw [if_neg (by simp [ho2]), hx sched]
  have hopen : RoundRobinPacketConn.isOpen
      { c with connList := (RoundRobinPacketConn.writeSessionIDs c.sessionID c.connList).1 } :=
    ⟨ho1, ho2⟩
  have hf : RoundRobinPacketConn.NewRoundRobinPacketConn_func1 (sched :: scheds) c
      = .ret { c with connList := (RoundRobinPacketConn.writeSessionIDs c.sessionID c.connList).1,
                      closeOnce := true, err := some e, closed := true } none := by
    simp only [RoundRobinPacketConn.NewRoundRobinPacketConn_func1, hl]
    exact RoundRobinPacketConn.roundRobin_closeWithError_open _ (some e) hopen
  have hc := RoundRobinPacketConn.roundRobin_closedWith_of_open
    { c with connList := (RoundRobinPacketConn.writeSessionIDs c.sessionID c.connList).1 }
    (some e)
  exact ⟨_, _, rfl, hx, hl, hf, rfl,
    fun p => ⟨_, RoundRobinPacketConn.roundRobin_ReadFrom_closed _ _ p hc, rfl, rfl⟩,
    fun p addr => ⟨_, RoundRobinPacketConn.roundRobin_WriteTo_closed _ _ p addr hc, rfl, rfl⟩,
    fun calls => ⟨_, RoundRobinPacketConn.roundRobin_seq_call_closed _ _ hc calls⟩⟩

/-- Witness of C7 on the adapter whose second connection is broken. -/
theorem sessionID_write_failure_fatal_witness :
    rrb.isOpen ∧ rrb.connList[1]? = some brokenConn ∧
    (brokenConn.Write rrb.sessionID.bytes).2 = some (.other "broken pipe") ∧
    ∃ c1 c2,
      c1 = { rrb with
        connList := (RoundRobinPacketConn.writeSessionIDs rrb.sessionID rrb.connList).1 } ∧
      (∀ sched1, rrb.exchange sched1 = .ret c1 (some (.other "broken pipe"))) ∧
      RoundRobinPacketConn.loop [[.outbound]] rrb = .ret c1 (some (.other "broken pipe")) ∧
      RoundRobinPacketConn.NewRoundRobinPacketConn_func1 [[.outbound]] rrb = .ret c2 none ∧
      c2 = { c1 with closeOnce := true, err := some (.other "broken pipe"), closed := true } ∧
      (∀ p, ∃ err, c2.ReadFrom p = .ret c2 ⟨0, none, some err, p⟩ ∧
        err.wraps "read" (.other "broken pipe")) ∧
      (∀ p addr, ∃ err, c2.WriteTo p addr = .ret c2 ⟨0, some err⟩ ∧
        err.wraps "write" (.other "broken pipe")) ∧
      (∀ calls, ∃ errs, Outcome.seq RoundRobinPacketConn.call calls c2 = .ret c2 errs) :=
  ⟨by decide, by decide, by decide,
    sessionID_write_failure_fatal rrb (.other "broken pipe") 1 brokenConn [.outbound] []
      (by decide)
      (by
        intro j k hj hk
        have hj0 : j = 0 := by omega
        subst hj0
        have : k = freshConn := by
          have h := hk
          simp [rrb, RoundRobinPacketConn.NewRoundRobinPacketConn] at h
          exact h.symm
        subst this
        decide)
      (by decide) (by decide)⟩

/-! ## C8: frame of QueueIncoming -/

/-- C8. On a QueuePacketConn whose inbound queue is as NewQueuePacketConn made
it (capacity 32): QueueIncoming leaves the whole adapter unchanged when the
connection is closed or the queue already holds 32 packets; when it is open
with fewer than 32 packets queued, exactly one entry with the bytes of the
packet and the given source address is appended at the tail of the inbound
queue and no other field changes. -/
theorem QueueIncoming_frame (c : QueuePacketConn) (p : Bytes) (addr : Addr)
    (hinv : c.recvQueue.Inv) :
    ((c.closed = true ∨ c.recvQueue.buf.length = 32) → c.QueueIncoming p addr = c) ∧
    ((c.closed = false ∧ c.recvQueue.buf.length < 32) →
      c.QueueIncoming p addr =
        { c with recvQueue := ⟨c.recvQueue.cap, c.recvQueue.buf ++ [⟨p, addr⟩]⟩ }) := by
  obtain ⟨hcap, _⟩ := hinv
  constructor
  · rintro (h | h)
    · exact QueuePacketConn.QueueIncoming_closed c p addr h
    · exact QueuePacketConn.QueueIncoming_full c p addr (by omega)
  · rintro ⟨ho, hlt⟩
    exact QueuePacketConn.QueueIncoming_room c p addr ho (by omega)

/-- Witness of C8 on a fresh QueuePacketConn. -/
theorem QueueIncoming_frame_witness :
    q0.recvQueue.Inv ∧ (q0.closed = false ∧ q0.recvQueue.buf.length < 32) ∧
    q0.QueueIncoming [7, 8] ⟨"tcp", "a"⟩ =
      { q0 with recvQueue := ⟨q0.recvQueue.cap, q0.recvQueue.buf ++ [⟨[7, 8], ⟨"tcp", "a"⟩⟩]⟩ } :=
  ⟨by decide, by decide,
    (QueueIncoming_frame q0 [7, 8] ⟨"tcp", "a"⟩ (by decide)).2 (by decide)⟩

/-! ## C9: several inbound goroutines reporting completion -/

/-- C9, the code at the failing input. In an exchange of the RoundRobinPacketConn
over two connections whose streams have ended, wg starts at 2 for three
goroutines; the return of inbound goroutine 0 closes done and brings the
counter to 1; the return of inbound goroutine 1 then panics on the second
close(done), so exchange faults. When the outbound goroutine returns between
the two, the counter is 0 while inbound goroutine 1 is still running: its
wg.Done() would make the counter negative, and its return panics as well. -/
theorem exchange_two_readers_fault :
    (RoundRobinPacketConn.spawn rr2).wg = 2 ∧
    (RoundRobinPacketConn.spawn rr2).readers = [.running none, .running none] ∧
    (RoundRobinPacketConn.run [.inbound 0] (rr2, RoundRobinPacketConn.spawn rr2)).map
      (fun s => (s.2.done, s.2.wg)) = some (true, 1) ∧
    RoundRobinPacketConn.run [.inbound 0, .inbound 1] (rr2, RoundRobinPacketConn.spawn rr2)
      = none ∧
    RoundRobinPacketConn.exchange [.inbound 0, .inbound 1] rr2 = .fault ∧
    (RoundRobinPacketConn.run [.inbound 0, .outbound] (rr2, RoundRobinPacketConn.spawn rr2)).map
      (fun s => (s.2.wg, s.2.readers)) = some (0, [.exited, .running none]) ∧
    (RoundRobinPacketConn.run [.inbound 0, .outbound] (rr2, RoundRobinPacketConn.spawn rr2)).bind
      (fun s => wgDone s.2) = none ∧
    RoundRobinPacketConn.run [.inbound 0, .outbound, .inbound 1]
      (rr2, RoundRobinPacketConn.spawn rr2) = none := by
  decide

/-! ## C10: sequential, cyclic selection -/

/-- C10, counterexample. With three connections and the counter at 2^32 - 2,
getConn returns connList[0] (the counter becomes 2^32 - 1, and 2^32 - 1 is a
multiple of 3), and the next getConn returns connList[0] again (the counter
wraps to 0), not connList[1]. -/
theorem getConn_wrap_counterexample :
    wrapConn.connList.length = 3 ∧ wrapConn.state = 2 ^ 32 - 2 ∧
    (wrapConn.getConn.map (fun r => r.2) = some 0) ∧
    ((wrapConn.getConn.bind (fun r => r.1.getConn)).map (fun r => r.2) = some 0) ∧
    (0 + 1) % 3 ≠ 0 := by
  decide

/-- C10, amended. For every non-empty connList of length N < 2^32 and every
value s of the 32-bit counter, getConn returns an in-range position
i = ((s + 1) mod 2^32) mod N, and, provided that s is not 2^32 - 2 or that N
divides 2^32, the immediately following getConn returns position
(i + 1) mod N; this includes the call that wraps the counter from 2^32 - 1
to 0. -/
theorem getConn_cyclic (c : RoundRobinPacketConn) (hne : c.connList ≠ [])
    (hlen : c.connList.length < 2 ^ 32) (hs : c.state < 2 ^ 32)
    (hwrap : c.state ≠ 2 ^ 32 - 2 ∨ c.connList.length ∣ 2 ^ 32) :
    ∃ c1 c2 i, c.getConn = some (c1, i) ∧ i < c.connList.length ∧
      i = ((c.state + 1) % 2 ^ 32) % c.connList.length ∧
      c1 = { c with state := (c.state + 1) % 2 ^ 32 } ∧
      c1.getConn = some (c2, (i + 1) % c.connList.length) := by
  have hpos : 0 < c.connList.length := List.length_pos.mpr hne
  norm_num at hlen hs hwrap
  have hmod : c.connList.length % 4294967296 = c.connList.length := Nat.mod_eq_of_lt hlen
  have hn0 : c.connList.length ≠ 0 := Nat.pos_iff_ne_zero.mp hpos
  refine ⟨{ c with state := (c.state + 1) % 2 ^ 32 },
    { c with state := ((c.state + 1) % 2 ^ 32 + 1) % 2 ^ 32 },
    ((c.state + 1) % 2 ^ 32) % c.connList.length, ?_, Nat.mod_lt _ hpos, rfl, rfl, ?_⟩
  · simp [RoundRobinPacketConn.getConn, hmod, hn0]
  · simp only [RoundRobinPacketConn.getConn]
    norm_num [hmod, hn0]
    simpa using succ_mod_cyclic c.state c.connList.length hs hwrap

/-- Witness of C10 (amended): the call that wraps the counter to 0, and the next. -/
theorem getConn_cyclic_witness :
    ({ rr0 with state := 4294967295 } : RoundRobinPacketConn).connList ≠ [] ∧
    ∃ c1 c2 i, ({ rr0 with state := 4294967295 } : RoundRobinPacketConn).getConn = some (c1, i) ∧
      i < 3 ∧ i = ((4294967295 + 1) % 2 ^ 32) % 3 ∧
      c1 = { rr0 with state := (4294967295 + 1) % 2 ^ 32 } ∧
      c1.getConn = some (c2, (i + 1) % 3) :=
  ⟨by decide,
    getConn_cyclic { rr0 with state := 4294967295 } (by decide) (by decide) (by decide)
      (Or.inl (by decide))⟩

/-! ## C11: what ReadFrom copies -/

/-- C11. ReadFrom on an open adapter whose inbound queue is not empty removes
exactly the head packet and, for every caller buffer p, returns
n = min(len(p), len(packet)) with a nil error; the buffer then holds the first
n bytes of the packet followed by p[n..] unchanged, and keeps its length. The
bytes of the packet beyond n are discarded: the queue that is left holds the
packets that followed and nothing else, so the next ReadFrom blocks when
nothing followed, and otherwise returns the next packet from its first byte.
The address returned is the tagged source of the packet for QueuePacketConn,
and remoteAddr for RedialPacketConn and RoundRobinPacketConn. -/
theorem ReadFrom_copies_head (q : QueuePacketConn) (r : RedialPacketConn)
    (rr : RoundRobinPacketConn) (p : Bytes)
    (x : taggedPacket) (xs : List taggedPacket) (y : Bytes) (ys : List Bytes)
    (z : Bytes) (zs : List Bytes)
    (hq : q.closed = false) (hr : r.closed = false) (hrr : rr.closed = false)
    (hqb : q.recvQueue.buf = x :: xs) (hrb : r.recvQueue.buf = y :: ys)
    (hrrb : rr.recvQueue.buf = z :: zs) :
    (q.ReadFrom p = .ret { q with recvQueue := ⟨q.recvQueue.cap, xs⟩ }
        ⟨min p.length x.P.length, some x.Addr, none,
          x.P.take (min p.length x.P.length) ++ p.drop (min p.length x.P.length)⟩ ∧
      ∀ p2, (xs = [] → ({ q with recvQueue := ⟨q.recvQueue.cap, xs⟩ } : QueuePacketConn).ReadFrom p2
          = .pending { q with recvQueue := ⟨q.recvQueue.cap, xs⟩ }) ∧
        (∀ x2 xs2, xs = x2 :: xs2 →
          ({ q with recvQueue := ⟨q.recvQueue.cap, xs⟩ } : QueuePacketConn).ReadFrom p2
            = .ret { q with recvQueue := ⟨q.recvQueue.cap, xs2⟩ }
              ⟨min p2.length x2.P.length, some x2.Addr, none,
                x2.P.take (min p2.length x2.P.length)
                  ++ p2.drop (min p2.length x2.P.length)⟩)) ∧
    (r.ReadFrom p = .ret { r with recvQueue := ⟨r.recvQueue.cap, ys⟩ }
        ⟨min p.length y.length, some r.remoteAddr, none,
          y.take (min p.length y.length) ++ p.drop (min p.length y.length)⟩ ∧
      ∀ p2, (ys = [] → ({ r with recvQueue := ⟨r.recvQueue.cap, ys⟩ } : RedialPacketConn).ReadFrom p2
          = .pending { r with recvQueue := ⟨r.recvQueue.cap, ys⟩ }) ∧
        (∀ y2 ys2, ys = y2 :: ys2 →
          ({ r with recvQueue := ⟨r.recvQueue.cap, ys⟩ } : RedialPacketConn).ReadFrom p2
            = .ret { r with recvQueue := ⟨r.recvQueue.cap, ys2⟩ }
              ⟨min p2.length y2.length, some r.remoteAddr, none,
                y2.take (min p2.length y2.length) ++ p2.drop (min p2.length y2.length)⟩)) ∧
    (rr.ReadFrom p = .ret { rr with recvQueue := ⟨rr.recvQueue.cap, zs⟩ }
        ⟨min p.length z.length, some rr.remoteAddr, none,
          z.take (min p.length z.length) ++ p.drop (min p.length z.length)⟩ ∧
      ∀ p2, (zs = [] →
          ({ rr with recvQueue := ⟨rr.recvQueue.cap, zs⟩ } : RoundRobinPacketConn).ReadFrom p2
            = .pending { rr with recvQueue := ⟨rr.recvQueue.cap, zs⟩ }) ∧
        (∀ z2 zs2, zs = z2 :: zs2 →
          ({ rr with recvQueue := ⟨rr.recvQueue.cap, zs⟩ } : RoundRobinPacketConn).ReadFrom p2
            = .ret { rr with recvQueue := ⟨rr.recvQueue.cap, zs2⟩ }
              ⟨min p2.length z2.length, some rr.remoteAddr, none,
                z2.take (min p2.length z2.length) ++ p2.drop (min p2.length z2.length)⟩)) ∧
    (∀ b : Bytes, (copy p b).2 = min p.length b.length ∧
      (copy p b).1.length = p.length ∧
      (copy p b).1.take (min p.length b.length) = b.take (min p.length b.length) ∧
      (copy p b).1.drop (min p.length b.length) = p.drop (min p.length b.length)) := by
  refine ⟨⟨QueuePacketConn.queue_ReadFrom_packet q x xs p hq hqb, fun p2 => ⟨fun h => ?_,
      fun x2 xs2 h => ?_⟩⟩,
    ⟨RedialPacketConn.redial_ReadFrom_packet r y ys p hr hrb, fun p2 => ⟨fun h => ?_,
      fun y2 ys2 h => ?_⟩⟩,
    ⟨RoundRobinPacketConn.roundRobin_ReadFrom_packet rr z zs p hrr hrrb, fun p2 => ⟨fun h => ?_,
      fun z2 zs2 h => ?_⟩⟩,
    fun b => ⟨rfl, copy_length p b, take_append_drop_min p b, drop_append_drop_min p b⟩⟩
  · exact QueuePacketConn.queue_ReadFrom_empty _ p2 hq h
  · exact QueuePacketConn.queue_ReadFrom_packet _ x2 xs2 p2 hq h
  · exact RedialPacketConn.redial_ReadFrom_empty _ p2 hr h
  · exact RedialPacketConn.redial_ReadFrom_packet _ y2 ys2 p2 hr h
  · exact RoundRobinPacketConn.roundRobin_ReadFrom_empty _ p2 hrr h
  · exact RoundRobinPacketConn.roundRobin_ReadFrom_packet _ z2 zs2 p2 hrr h

/-- Witness of C11: a packet of four bytes read into a buffer of two bytes on
each adapter; two bytes are returned and the other two are gone. -/
theorem ReadFrom_copies_head_witness :
    (qFull.closed = false ∧ rFull.closed = false ∧ rrFull.closed = false) ∧
    (qFull.recvQueue.buf = [⟨[1, 2, 3, 4], ⟨"tcp", "a"⟩⟩] ∧
      rFull.recvQueue.buf = [[1, 2, 3, 4]] ∧ rrFull.recvQueue.buf = [[1, 2, 3, 4]]) ∧
    qFull.ReadFrom [9, 9] = .ret q0 ⟨2, some ⟨"tcp", "a"⟩, none, [1, 2]⟩ ∧
    (∀ p2, q0.ReadFrom p2 = .pending q0) :=
  ⟨by decide, by decide,
    match ReadFrom_copies_head qFull rFull rrFull [9, 9] ⟨[1, 2, 3, 4], ⟨"tcp", "a"⟩⟩ []
      [1, 2, 3, 4] [] [1, 2, 3, 4] [] (by decide) (by decide) (by decide)
      (by decide) (by decide) (by decide) with
    | ⟨⟨h1, h2⟩, _⟩ => ⟨h1, fun p2 => (h2 p2).1 rfl⟩⟩

/-! ## C12: validation of the splitting algorithm -/

/-- C12. GetClientTOMLConfig validates the splitting algorithm: when the TOML
file decodes without error into a configuration cfg, the function returns a
non-nil configuration and a nil error if and only if cfg.SplittingAlg is
exactly "round-robin" or exactly "random"; it then returns cfg itself. For
every other value, among them the empty string and the same words in another
case, it returns a nil configuration and the error "Invalid splitting algorithm
in TOML". Replacing the connections of cfg by any others changes neither the
error returned nor whether a configuration is returned. -/
theorem GetClientTOMLConfig_validates (DecodeFile : String → SplitPTConfig × Option Error)
    (tomlFilename : String) (hdec : (DecodeFile tomlFilename).2 = none) :
    (((GetClientTOMLConfig DecodeFile tomlFilename).config ≠ none ∧
        (GetClientTOMLConfig DecodeFile tomlFilename).err = none) ↔
      ((DecodeFile tomlFilename).1.SplittingAlg = "round-robin" ∨
        (DecodeFile tomlFilename).1.SplittingAlg = "random")) ∧
    (((DecodeFile tomlFilename).1.SplittingAlg = "round-robin" ∨
        (DecodeFile tomlFilename).1.SplittingAlg = "random") →
      (GetClientTOMLConfig DecodeFile tomlFilename).config = some (DecodeFile tomlFilename).1 ∧
      (GetClientTOMLConfig DecodeFile tomlFilename).err = none) ∧
    (¬ ((DecodeFile tomlFilename).1.SplittingAlg = "round-robin" ∨
        (DecodeFile tomlFilename).1.SplittingAlg = "random") →
      (GetClientTOMLConfig DecodeFile tomlFilename).config = none ∧
      (GetClientTOMLConfig DecodeFile tomlFilename).err
        = some (.other "Invalid splitting algorithm in TOML")) ∧
    (((DecodeFile tomlFilename).1.SplittingAlg = "" ∨
        (DecodeFile tomlFilename).1.SplittingAlg = "Round-Robin" ∨
        (DecodeFile tomlFilename).1.SplittingAlg = "RANDOM" ∨
        (DecodeFile tomlFilename).1.SplittingAlg = "round-robin ") →
      (GetClientTOMLConfig DecodeFile tomlFilename).config = none ∧
      (GetClientTOMLConfig DecodeFile tomlFilename).err
        = some (.other "Invalid splitting algorithm in TOML")) ∧
    (∀ conns name,
      (GetClientTOMLConfig
          (decodesTo { (DecodeFile tomlFilename).1 with Connections := conns }) name).err
        = (GetClientTOMLConfig DecodeFile tomlFilename).err ∧
      (GetClientTOMLConfig
          (decodesTo { (DecodeFile tomlFilename).1 with Connections := conns }) name).config.isSome
        = (GetClientTOMLConfig DecodeFile tomlFilename).config.isSome) := by
  have hrej : ¬ ((DecodeFile tomlFilename).1.SplittingAlg = "round-robin" ∨
        (DecodeFile tomlFilename).1.SplittingAlg = "random") →
      (GetClientTOMLConfig DecodeFile tomlFilename).config = none ∧
      (GetClientTOMLConfig DecodeFile tomlFilename).err
        = some (.other "Invalid splitting algorithm in TOML") := fun h =>
    GetClientTOMLConfig_reject DecodeFile tomlFilename hdec (fun h1 => h (Or.inl h1))
      (fun h2 => h (Or.inr h2))
  refine ⟨⟨fun h => ?_, fun h => ?_⟩, GetClientTOMLConfig_accept DecodeFile tomlFilename hdec,
    hrej, fun h => hrej ?_, fun conns name => ?_⟩
  · by_contra hn
    exact h.1 (hrej hn).1
  · have := GetClientTOMLConfig_accept DecodeFile tomlFilename hdec h
    exact ⟨by rw [this.1]; simp, this.2⟩
  · rintro (h1 | h1) <;> rcases h with h | h | h | h <;> rw [h] at h1 <;>
      exact absurd h1 (by decide)
  · by_cases halg : (DecodeFile tomlFilename).1.SplittingAlg = "round-robin" ∨
        (DecodeFile tomlFilename).1.SplittingAlg = "random"
    · have a := GetClientTOMLConfig_accept DecodeFile tomlFilename hdec halg
      have b := GetClientTOMLConfig_accept
        (decodesTo { (DecodeFile tomlFilename).1 with Connections := conns }) name rfl halg
      rw [a.1, a.2, b.1, b.2]
      simp
    · have a := hrej halg
      have b := GetClientTOMLConfig_reject
        (decodesTo { (DecodeFile tomlFilename).1 with Connections := conns }) name rfl
        (fun h1 => halg (Or.inl h1)) (fun h2 => halg (Or.inr h2))
      rw [a.1, a.2, b.1, b.2]
      simp

/-- Witness of C12: a file that decodes to the algorithm "round-robin" with
two connections is accepted. -/
theorem GetClientTOMLConfig_validates_witness :
    (decodesTo cfgRoundRobin "client.toml").2 = none ∧
    (GetClientTOMLConfig (decodesTo cfgRoundRobin) "client.toml").config = some cfgRoundRobin ∧
    (GetClientTOMLConfig (decodesTo cfgRoundRobin) "client.toml").err = none :=
  ⟨rfl, (GetClientTOMLConfig_validates (decodesTo cfgRoundRobin) "client.toml" rfl).2.1
    (Or.inl rfl)⟩

end Splitpt
